import Mathlib

/-!
Shallow embedding of the `cweb` C interpreter (src/wasm/src/lib.rs) and
verification of the frozen claims about it.

Modelling conventions:
* Source text is `List Char` (named `Str`); Rust byte indices coincide with
  char indices on the ASCII programs all claims use.
* Rust `HashMap` becomes an association list with replace-on-insert; every
  lookup in the source goes through `get`, so ordering is observable only in
  the reverse scan of `address_map` in `handle_assignment`, where the map is
  injective in reachable states (addresses are allocated fresh per name).
* `i64` arithmetic is modelled on `Int`; two's-complement wrapping on
  overflow is not modelled (no claim depends on it).  Division, remainder
  and shifts use Rust truncation semantics, and a divisor of zero in `%`
  is modelled as the Rust panic it causes (`Err.panicE`), distinct from the
  interpreter's own `String` errors (`Err.interp`).
* `f64` is modelled by `Rat`: which strings parse is modelled after the
  Rust grammar, while IEEE rounding, transcendental functions
  (`sqrt`, `sin`, ...) and float-to-string rendering are not modelled —
  no claim depends on any float value.  The same holds for the value of
  `rand` (SipHash of the output length is replaced by a fixed function).
* General recursion of the interpreter is made total with a `fuel`
  parameter; exhaustion yields the distinguished `Err.fuelE`, which is an
  artifact of the embedding, not an interpreter error.
* Interpreter error messages (`Err.interp`) carry a proof that the message
  is non-empty, recording at each throw site the evident non-emptiness of
  the diagnostic produced there.
-/

namespace Cweb

abbrev Str := List Char

/-- The double-quote character. -/
def qChar : Char := Char.ofNat 34

/-- The single-quote (apostrophe) character. -/
def aChar : Char := Char.ofNat 39

/-- The opening-brace character. -/
def lbChar : Char := Char.ofNat 123

/-- The closing-brace character. -/
def rbChar : Char := Char.ofNat 125

/-- The backslash character. -/
def bsChar : Char := Char.ofNat 92

/-- Rust `str::starts_with`. -/
def startsWithL : Str → Str → Bool
  | _, [] => true
  | [], _ :: _ => false
  | c :: s, p :: ps => c = p && startsWithL s ps

/-- Rust `str::contains` (substring containment). -/
def containsSub : Str → Str → Bool
  | s, pat =>
    if startsWithL s pat then true
    else match s with
      | [] => false
      | _ :: t => containsSub t pat

/-- Rust `str::contains` for a single character. -/
def containsChar (s : Str) (c : Char) : Bool := s.contains c

/-- Index (in chars) of the first occurrence of `pat` in `s`, Rust `str::find`. -/
def findSub : Str → Str → Option Nat
  | s, pat =>
    if startsWithL s pat then some 0
    else match s with
      | [] => none
      | _ :: t => (findSub t pat).map (· + 1)

/-- Index of the first occurrence of character `c`, Rust `str::find(char)`. -/
def findCharIdx : Str → Char → Option Nat
  | [], _ => none
  | x :: t, c => if x = c then some 0 else (findCharIdx t c).map (· + 1)

/-- Index of the last occurrence of character `c`, Rust `str::rfind(char)`. -/
def rfindCharIdx (s : Str) (c : Char) : Option Nat :=
  match findCharIdx s.reverse c with
  | none => none
  | some i => some (s.length - 1 - i)

/-- `s[a..b]` as in Rust slicing (chars `a` inclusive to `b` exclusive). -/
def slice (s : Str) (a b : Nat) : Str := (s.drop a).take (b - a)

/-- Rust whitespace test for `str::trim` (ASCII portion). -/
def isWs (c : Char) : Bool := c = ' ' || c = '\t' || c = '\n' || c = '\r'

/-- Rust `str::trim_start`. -/
def trimStart (s : Str) : Str := s.dropWhile isWs

/-- Rust `str::trim_end`. -/
def trimEnd (s : Str) : Str := (s.reverse.dropWhile isWs).reverse

/-- Rust `str::trim`. -/
def trim (s : Str) : Str := trimEnd (trimStart s)

/-- Rust `str::trim_start_matches(c)`: strips every leading `c`. -/
def trimStartMatches (s : Str) (c : Char) : Str := s.dropWhile (· = c)

/-- Rust `str::trim_end_matches(c)`: strips every trailing `c`. -/
def trimEndMatches (s : Str) (c : Char) : Str :=
  (s.reverse.dropWhile (· = c)).reverse

/-- Rust `str::trim_matches(c)`: strips every leading and trailing `c`. -/
def trimMatches (s : Str) (c : Char) : Str :=
  trimEndMatches (trimStartMatches s c) c

/-- Rust `str::splitn(2, pat)` when the pattern occurs: the text before the
first occurrence and the text after it. -/
def splitFirst : Str → Str → Option (Str × Str)
  | s, pat =>
    if startsWithL s pat then some ([], s.drop pat.length)
    else match s with
      | [] => none
      | c :: t => (splitFirst t pat).map (fun p => (c :: p.1, p.2))

/-- Accumulator form of `splitAllChar` (current piece kept reversed). -/
def splitAllCharAux : Str → Char → Str → List Str
  | [], _, cur => [cur.reverse]
  | c :: t, sep, cur =>
    if c = sep then cur.reverse :: splitAllCharAux t sep []
    else splitAllCharAux t sep (c :: cur)

/-- Rust `str::split(c)`: split on every occurrence, keeping empty pieces. -/
def splitAllChar (s : Str) (c : Char) : List Str := splitAllCharAux s c []

/-- Rust `str::lines`: split on newline, dropping one trailing `\r` per line
and ignoring a final empty segment caused by a trailing newline. -/
def linesOf (s : Str) : List Str :=
  let raw := splitAllChar s '\n'
  let raw := match raw.reverse with
    | [] :: rest => rest.reverse
    | _ => raw
  raw.map (fun l => match l.reverse with
    | '\r' :: t => t.reverse
    | _ => l)

/-- Worker for `replaceAll`, structurally recursive on a fuel that starts
at the string length (every step consumes at least one character). -/
def replaceAllAux : Nat → Str → Str → Str → Str
  | 0, s, _, _ => s
  | _ + 1, [], _, _ => []
  | f + 1, c :: t, pat, repl =>
    if startsWithL (c :: t) pat && !pat.isEmpty then
      repl ++ replaceAllAux f (t.drop (pat.length - 1)) pat repl
    else c :: replaceAllAux f t pat repl

/-- Rust `str::replace` (all non-overlapping occurrences, left to right).
The source only calls it with non-empty literal patterns. -/
def replaceAll (s pat repl : Str) : Str := replaceAllAux s.length s pat repl

/-- Replace the first occurrence of `pat` in `s` by `repl`
(Rust `find` + `replace_range` as used in `handle_printf`). -/
def replaceFirstOcc : Str → Str → Str → Str
  | s, pat, repl =>
    if startsWithL s pat && !pat.isEmpty then repl ++ s.drop pat.length
    else match s with
      | [] => []
      | c :: t => c :: replaceFirstOcc t pat repl

/-- Decimal (and octal) digit character as produced by Rust's integer
formatting; arguments are always below 10 at the call sites. -/
def digitChar (d : Nat) : Char :=
  match d with
  | 0 => '0' | 1 => '1' | 2 => '2' | 3 => '3' | 4 => '4'
  | 5 => '5' | 6 => '6' | 7 => '7' | 8 => '8' | 9 => '9'
  | _ => '0' 

/-- Decimal rendering of a natural number, accumulator form; the first
argument is fuel (structural), ample when it starts at `n`. -/
def natDecAux : Nat → Nat → Str → Str
  | 0, n, acc => digitChar (n % 10) :: acc
  | f + 1, n, acc =>
    if n < 10 then digitChar n :: acc
    else natDecAux f (n / 10) (digitChar (n % 10) :: acc)

/-- Decimal rendering of a natural number (Rust `u::to_string`). -/
def natDec (n : Nat) : Str := natDecAux n n []

/-- Decimal rendering of an `i64` (Rust `i64::to_string`). -/
def intDec (i : Int) : Str :=
  if i < 0 then '-' :: natDec (-i).toNat else natDec i.toNat

/-- Hex digit character (lowercase, as Rust `{:x}`). -/
def hexDigitChar (d : Nat) : Char :=
  if d < 10 then Char.ofNat (48 + d) else Char.ofNat (97 + (d - 10))

/-- Lowercase hex rendering of a natural number, accumulator form; the
first argument is fuel (structural), ample when it starts at `n`. -/
def natHexAux : Nat → Nat → Str → Str
  | 0, n, acc => hexDigitChar (n % 16) :: acc
  | f + 1, n, acc =>
    if n < 16 then hexDigitChar n :: acc
    else natHexAux f (n / 16) (hexDigitChar (n % 16) :: acc)

/-- Lowercase hex rendering of a natural number. -/
def natHex (n : Nat) : Str := natHexAux n n []

/-- Octal rendering of a natural number, accumulator form; the first
argument is fuel (structural), ample when it starts at `n`. -/
def natOctAux : Nat → Nat → Str → Str
  | 0, n, acc => digitChar (n % 8) :: acc
  | f + 1, n, acc =>
    if n < 8 then digitChar n :: acc
    else natOctAux f (n / 8) (digitChar (n % 8) :: acc)

/-- Octal rendering of a natural number. -/
def natOct (n : Nat) : Str := natOctAux n n []

/-- The `u64` bit pattern of an `i64` value. -/
def asU64 (i : Int) : Nat := (i.emod (2 ^ 64)).toNat

/-- Rust `{:x}` on an `i64`: lowercase hex of the two's-complement pattern. -/
def intHex (i : Int) : Str := natHex (asU64 i)

/-- Rust `{:o}` on an `i64`: octal of the two's-complement pattern. -/
def intOct (i : Int) : Str := natOct (asU64 i)

/-- Rust `as usize` on an `i64`, on the wasm32 target (usize is 32-bit). -/
def asUsize (i : Int) : Nat := (i.emod (2 ^ 32)).toNat

/-- Is `c` an ASCII decimal digit? -/
def isDigitCh (c : Char) : Bool := 48 ≤ c.toNat && c.toNat ≤ 57

/-- Value of a digit string read in decimal. -/
def digitsVal : Str → Nat → Nat
  | [], acc => acc
  | c :: t, acc => digitsVal t (acc * 10 + (c.toNat - 48))

/-- Rust `str::parse::<i64>()`: optional sign, at least one digit, all
digits, result in `i64` range. -/
def parseI64 (s : Str) : Option Int :=
  let (sign, digits) : Int × Str :=
    match s with
    | '-' :: t => (-1, t)
    | '+' :: t => (1, t)
    | t => (1, t)
  if digits.isEmpty || !(digits.all isDigitCh) then none
  else
    let v : Int := sign * (digitsVal digits 0 : Nat)
    if -(2 ^ 63) ≤ v && v < 2 ^ 63 then some v else none

/-- Value of a digit string read as a decimal fraction. -/
def fracVal : Str → Rat
  | [] => 0
  | c :: t => ((c.toNat - 48 : Nat) + fracVal t) / 10

/-- Rust `str::parse::<f64>()`, modelled on `Rat`.  The accepted grammar
(sign, digits with optional point, optional exponent, `inf`/`nan` forms)
follows Rust; the numeric value is the exact decimal value — IEEE rounding,
infinities and NaN payloads are not modelled (no claim depends on a float
value). -/
def parseF64 (s : Str) : Option Rat :=
  let (sign, body) : Rat × Str :=
    match s with
    | '-' :: t => (-1, t)
    | '+' :: t => (1, t)
    | t => (1, t)
  let lower := body.map Char.toLower
  if lower = ('i' :: 'n' :: 'f' :: []) ∨
     lower = ('i' :: 'n' :: 'f' :: 'i' :: 'n' :: 'i' :: 't' :: 'y' :: []) ∨
     lower = ('n' :: 'a' :: 'n' :: []) then
    some 0
  else
    let (mant, expPart) : Str × Option Str :=
      match findCharIdx lower 'e' with
      | none => (body, none)
      | some i => (body.take i, some (body.drop (i + 1)))
    let (intPart, fracPart) : Str × Str :=
      match findCharIdx mant '.' with
      | none => (mant, [])
      | some i => (mant.take i, mant.drop (i + 1))
    if (intPart.isEmpty && fracPart.isEmpty) ||
       !(intPart.all isDigitCh) || !(fracPart.all isDigitCh) then none
    else
      let base : Rat := sign * ((digitsVal intPart 0 : Nat) + fracVal fracPart)
      match expPart with
      | none => some base
      | some e =>
        let (esign, edigits) : Int × Str :=
          match e with
          | '-' :: t => (-1, t)
          | '+' :: t => (1, t)
          | t => (1, t)
        if edigits.isEmpty || !(edigits.all isDigitCh) then none
        else
          let k : Nat := digitsVal edigits 0
          if esign < 0 then some (base / ((10 : Rat) ^ k))
          else some (base * ((10 : Rat) ^ k))

/-- Rust `f64 as i64`: truncation toward zero (saturation not modelled). -/
def ratTruncToInt (q : Rat) : Int := q.num.tdiv q.den

/-- Rust `/` on `i64` (truncating division; callers check the divisor). -/
def rustDiv (a b : Int) : Int := a.tdiv b

/-- Rust `%` on `i64` for a nonzero divisor (remainder with dividend sign). -/
def rustRem (a b : Int) : Int := a.tmod b

/-- Rust `<<` on `i64` in release mode: the shift amount is masked to its
low 6 bits; two's-complement wrapping of the result is not modelled. -/
def rustShl (a b : Int) : Int := a * 2 ^ (b.emod 64).toNat

/-- Rust `>>` on `i64` (arithmetic shift = floor division), amount masked. -/
def rustShr (a b : Int) : Int := a.fdiv (2 ^ (b.emod 64).toNat)

/-- Rust `!` (bitwise not) on `i64`. -/
def rustNot (a : Int) : Int := -(a + 1)

/-! ## Data model (`Value`, `Memory`, interpreter state, result type) -/

/-- The `Value` enum of the source. `Float` is modelled by `Rat`. -/
inductive Value where
  | int (i : Int)
  | float (f : Rat)
  | str (s : Str)
  | char (c : Char)
  | bool (b : Bool)
  | array (a : List Value)
  | pointer (addr : Int)

/-- The `Function` struct of the source (parsed but never populated). -/
structure Funct where
  params : List (Str × Str)
  body : Str
  returnType : Str

/-- Association-list model of `HashMap<String, V>` / `HashMap<i64, V>`:
lookup of the first matching key. -/
def lookupA {κ α : Type} [DecidableEq κ] : List (κ × α) → κ → Option α
  | [], _ => none
  | (k, v) :: t, key => if key = k then some v else lookupA t key

/-- `HashMap::insert`: replace the binding if the key is present, else add it. -/
def insertA {κ α : Type} [DecidableEq κ] : List (κ × α) → κ → α → List (κ × α)
  | [], key, v => [(key, v)]
  | (k, w) :: t, key, v =>
    if key = k then (k, v) :: t else (k, w) :: insertA t key v

/-- `HashMap::contains_key`. -/
def containsA {κ α : Type} [DecidableEq κ] (m : List (κ × α)) (key : κ) : Bool :=
  (lookupA m key).isSome

/-- The `Memory` struct: simulated heap, allocation counter, name → address. -/
structure Memory where
  heap : List (Int × Value)
  nextAddress : Int
  addressMap : List (Str × Int)

/-- `Memory::new()`. -/
def Memory.init : Memory := { heap := [], nextAddress := 0x1000, addressMap := [] }

/-- Interpreter errors.  `interp` is a `String` error of the source and
carries the evident non-emptiness of its message; `panicE` is a Rust
panic (process abort — never surfaces as an interpreter error); `fuelE`
marks exhaustion of the embedding's fuel, an artifact with no source
counterpart. -/
inductive Err where
  | interp (msg : Str) (ne : msg ≠ [])
  | panicE (msg : Str)
  | fuelE

/-- Interpreter state: the fields of `CInterpreter`; `vars` models the
source field `variables` (a Lean 4 reserved word). -/
structure St where
  vars : List (Str × Value)
  globalVariables : List (Str × Value)
  functions : List (Str × Funct)
  output : Str
  inputBuffer : List Str
  loopBreak : Bool
  loopContinue : Bool
  memory : Memory

/-- `CInterpreter::new()`. -/
def initSt : St :=
  { vars := [], globalVariables := [], functions := [], output := [],
    inputBuffer := [], loopBreak := false, loopContinue := false,
    memory := Memory.init }

/-- Result of a stateful interpreter step. -/
abbrev Res (α : Type) := Except Err (α × St)

/-- `Memory::allocate`. -/
def Memory.allocate (m : Memory) (v : Value) : Int × Memory :=
  (m.nextAddress,
   { m with heap := insertA m.heap m.nextAddress v,
            nextAddress := m.nextAddress + 8 })

/-- `Memory::get_address_of`: reuse the recorded address or allocate one. -/
def Memory.getAddressOf (m : Memory) (varName : Str) (v : Value) :
    Int × Memory :=
  match lookupA m.addressMap varName with
  | some addr => (addr, m)
  | none =>
    (m.nextAddress,
     { heap := insertA m.heap m.nextAddress v,
       addressMap := insertA m.addressMap varName m.nextAddress,
       nextAddress := m.nextAddress + 8 })

/-- The segmentation-fault diagnostic of `Memory::read` / `Memory::write`. -/
def segfaultMsg (addr : Int) : Str :=
  ("Segmentation fault: invalid memory address 0x").toList ++ intHex addr

/-- The segmentation-fault error value. -/
def errSegfault (addr : Int) : Err :=
  .interp (segfaultMsg addr)
    (List.append_ne_nil_of_left_ne_nil (by decide) _)

/-- `Memory::read`. -/
def Memory.read (m : Memory) (addr : Int) : Except Err Value :=
  match lookupA m.heap addr with
  | some v => .ok v
  | none => .error (errSegfault addr)

/-- `Memory::write`: only succeeds when `addr` is already a heap key. -/
def Memory.write (m : Memory) (addr : Int) (v : Value) : Except Err Memory :=
  if containsA m.heap addr then .ok { m with heap := insertA m.heap addr v }
  else .error (errSegfault addr)

/-- `Memory::update_variable_address`. -/
def Memory.updateVariableAddress (m : Memory) (varName : Str) (v : Value) :
    Memory :=
  match lookupA m.addressMap varName with
  | some addr => { m with heap := insertA m.heap addr v }
  | none => m

/-! ## Error values -/

/-- An interpreter error with a literal message. -/
def errLit (s : String) (h : s.toList ≠ []) : Err := .interp s.toList h

/-- `format!("Error: Cannot evaluate expression: {}", expr)`. -/
def errCannotEval (e : Str) : Err :=
  .interp (("Error: Cannot evaluate expression: ").toList ++ e)
    (List.append_ne_nil_of_left_ne_nil (by decide) _)

/-- `format!("Variable '{}' not found", name)`. -/
def errVarNotFound (n : Str) : Err :=
  .interp (("Variable \x27").toList ++ (n ++ ("\x27 not found").toList))
    (List.append_ne_nil_of_left_ne_nil (by decide) _)

/-- `format!("'{}' is not a valid pointer", name)`. -/
def errNotValidPointer (n : Str) : Err :=
  .interp (aChar :: (n ++ ("\x27 is not a valid pointer").toList))
    (by simp)

/-- The loop-cap diagnostic of every loop construct. -/
def loopCapMsg : Str :=
  ("Loop exceeded maximum iterations (possible infinite loop)").toList

/-- The loop-cap error value. -/
def errLoopCap : Err := .interp loopCapMsg (by decide)

/-- The Rust panic raised by `i64 % 0` (the `%=` and `%` paths never check
the divisor). -/
def panicRemZero : Err :=
  .panicE (("attempt to calculate the remainder with a divisor of zero").toList)

/-- A Rust panic on an unreachable branch (e.g. an `unwrap` whose guard was
just checked); kept so the embedding is total without inventing behavior. -/
def panicUnreachable : Err :=
  .panicE (("entered unreachable code").toList)

/-! ## Balanced-delimiter scans and statement/argument splitting -/

/-- Worker for `find_matching_brace`: scan from absolute index `i`. -/
def fmbAux : List Char → Int → Nat → Option Nat
  | [], _, _ => none
  | c :: t, depth, i =>
    if c = lbChar then fmbAux t (depth + 1) (i + 1)
    else if c = rbChar then
      if depth - 1 = 0 then some i else fmbAux t (depth - 1) (i + 1)
    else fmbAux t depth (i + 1)

/-- `CInterpreter::find_matching_brace` (depth scan over raw chars;
string literals are not skipped, exactly as in the source). -/
def findMatchingBrace (code : Str) (start : Nat) : Option Nat :=
  fmbAux (code.drop start) 0 start

/-- Worker for `find_matching_paren`. -/
def fmpAux : List Char → Int → Nat → Option Nat
  | [], _, _ => none
  | c :: t, depth, i =>
    if c = '(' then fmpAux t (depth + 1) (i + 1)
    else if c = ')' then
      if depth - 1 = 0 then some i else fmpAux t (depth - 1) (i + 1)
    else fmpAux t depth (i + 1)

/-- `CInterpreter::find_matching_paren`. -/
def findMatchingParen (code : Str) (start : Nat) : Option Nat :=
  fmpAux (code.drop start) 0 start

/-- Worker for `split_statements`: `body` is the full text, the first
argument the chars not yet scanned, then absolute index, piece start,
brace depth, paren depth, in-string flag, previous char, accumulator. -/
def splitStatementsAux (body : Str) :
    List Char → Nat → Nat → Int → Int → Bool → Option Char → List Str →
    List Str
  | [], _, currentStart, _, _, _, _, acc =>
    let remaining := trim (body.drop currentStart)
    if remaining.isEmpty then acc else acc ++ [remaining]
  | c :: t, i, currentStart, bd, pd, inString, prev, acc =>
    if c = qChar ∧ (i = 0 ∨ prev ≠ some bsChar) then
      splitStatementsAux body t (i + 1) currentStart bd pd (!inString)
        (some c) acc
    else if c = lbChar ∧ ¬inString then
      splitStatementsAux body t (i + 1) currentStart (bd + 1) pd inString
        (some c) acc
    else if c = rbChar ∧ ¬inString then
      splitStatementsAux body t (i + 1) currentStart (bd - 1) pd inString
        (some c) acc
    else if c = '(' ∧ ¬inString then
      splitStatementsAux body t (i + 1) currentStart bd (pd + 1) inString
        (some c) acc
    else if c = ')' ∧ ¬inString then
      splitStatementsAux body t (i + 1) currentStart bd (pd - 1) inString
        (some c) acc
    else if c = ';' ∧ ¬inString ∧ bd = 0 ∧ pd = 0 then
      let stmt := trim (slice body currentStart (i + 1))
      let acc := if stmt.isEmpty then acc else acc ++ [stmt]
      splitStatementsAux body t (i + 1) (i + 1) bd pd inString (some c) acc
    else
      splitStatementsAux body t (i + 1) currentStart bd pd inString
        (some c) acc

/-- `CInterpreter::split_statements`. -/
def splitStatements (body : Str) : List Str :=
  splitStatementsAux body body 0 0 0 0 false none []

/-- Worker for `split_args`. -/
def splitArgsAux : List Char → Bool → Int → Str → List Str → List Str
  | [], _, _, cur, acc => if cur.isEmpty then acc else acc ++ [trim cur]
  | c :: t, inStr, pd, cur, acc =>
    if c = qChar then splitArgsAux t (!inStr) pd (cur ++ [c]) acc
    else if c = '(' then splitArgsAux t inStr (pd + 1) (cur ++ [c]) acc
    else if c = ')' then splitArgsAux t inStr (pd - 1) (cur ++ [c]) acc
    else if c = ',' ∧ ¬inStr ∧ pd = 0 then
      if cur.isEmpty then splitArgsAux t inStr pd [] acc
      else splitArgsAux t inStr pd [] (acc ++ [trim cur])
    else splitArgsAux t inStr pd (cur ++ [c]) acc

/-- `CInterpreter::split_args` (top-level commas; quotes and parens nest). -/
def splitArgs (args : Str) : List Str := splitArgsAux args false 0 [] []

/-! ## Right-to-left operator scans of `evaluate_numeric_expression` -/

/-- One right-to-left scan over the expression: `i + 1` is the count of
positions still to visit (so the current position is `i`), `depth` the
paren depth accumulated from the right (`)` opens, `(` closes), and
`pick` decides whether position `i` is the operator looked for. -/
def scanRTLAux (chars : List Char) (pick : List Char → Nat → Char → Bool) :
    Nat → Int → Option Nat
  | 0, _ => none
  | i + 1, depth =>
    let c := chars.getD i ' '
    if c = ')' then scanRTLAux chars pick i (depth + 1)
    else if c = '(' then scanRTLAux chars pick i (depth - 1)
    else if depth = 0 ∧ pick chars i c then some i
    else scanRTLAux chars pick i depth

/-- Position of a top-level bitwise `|` (not part of `||`). -/
def scanBitOr (e : Str) : Option Nat :=
  scanRTLAux e
    (fun chars i c =>
      c = '|' && (i = 0 || chars.getD (i - 1) ' ' ≠ '|') &&
        (i = chars.length - 1 || chars.getD (i + 1) ' ' ≠ '|'))
    e.length 0

/-- Position of a top-level bitwise `&` (not part of `&&`). -/
def scanBitAnd (e : Str) : Option Nat :=
  scanRTLAux e
    (fun chars i c =>
      c = '&' && (i = 0 || chars.getD (i - 1) ' ' ≠ '&') &&
        (i = chars.length - 1 || chars.getD (i + 1) ' ' ≠ '&'))
    e.length 0

/-- Position of a top-level `^`. -/
def scanXor (e : Str) : Option Nat :=
  scanRTLAux e (fun _ _ c => c = '^') e.length 0

/-- Position of a top-level binary `+` or `-` (the `-` only when `i > 0`
and the previous char is not `e`/`E`, the source's scientific-notation
tie-break; the `+` only when `i > 0`). -/
def scanAddSub (e : Str) : Option Nat :=
  scanRTLAux e
    (fun chars i c =>
      (c = '+' && decide (0 < i)) ||
      (c = '-' && decide (0 < i) && chars.getD (i - 1) ' ' ≠ 'e' &&
        chars.getD (i - 1) ' ' ≠ 'E'))
    e.length 0

/-- Position of a top-level `*`, `/` or `%`. -/
def scanMulDivRem (e : Str) : Option Nat :=
  scanRTLAux e (fun _ _ c => c = '*' || c = '/' || c = '%') e.length 0

/-! ## Expression evaluation (`evaluate_numeric_expression`,
`evaluate_condition`)

`evaluateNumericRest` is the tail of `evaluate_numeric_expression` from the
pointer-dereference check on; it is split out because the array-element
branch of the source falls through to it with the side effects of the index
evaluation already applied. -/

/-- Shared comparison step of `evaluate_condition`: split once on `pat`,
evaluate both sides numerically, compare.  `evalNum` is the numeric
evaluator (tied to `evaluateNumeric` below; the recursion is broken up
this way so that every definition is structurally recursive and reduces
in the kernel). -/
def condCompareF (evalNum : Str → St → Res Int) (c pat : Str)
    (cmp : Int → Int → Bool) (st : St) : Res Bool :=
  match splitFirst c pat with
  | none => .error panicUnreachable
  | some (l, r) =>
    match evalNum (trim l) st with
    | .error er => .error er
    | .ok (lv, st1) =>
      match evalNum (trim r) st1 with
      | .error er => .error er
      | .ok (rv, st2) => .ok (cmp lv rv, st2)

/-- `CInterpreter::evaluate_condition`, parameterized by the numeric
evaluator; the fuel bounds the recursion on subconditions. -/
def evaluateConditionF (evalNum : Str → St → Res Int) :
    Nat → Str → St → Res Bool
  | 0, _, _ => .error .fuelE
  | f + 1, condition, st =>
    let c := trim condition
    if containsSub c (("&&").toList) then
      match splitFirst c (("&&").toList) with
      | none => .error panicUnreachable
      | some (l, r) =>
        match evaluateConditionF evalNum f (trim l) st with
        | .error er => .error er
        | .ok (lv, st1) =>
          match evaluateConditionF evalNum f (trim r) st1 with
          | .error er => .error er
          | .ok (rv, st2) => .ok (lv && rv, st2)
    else if containsSub c (("||").toList) then
      match splitFirst c (("||").toList) with
      | none => .error panicUnreachable
      | some (l, r) =>
        match evaluateConditionF evalNum f (trim l) st with
        | .error er => .error er
        | .ok (lv, st1) =>
          match evaluateConditionF evalNum f (trim r) st1 with
          | .error er => .error er
          | .ok (rv, st2) => .ok (lv || rv, st2)
    else
      match c with
      | '!' :: rest =>
        match evaluateConditionF evalNum f (trim rest) st with
        | .error er => .error er
        | .ok (b, st1) => .ok (!b, st1)
      | _ =>
        if containsSub c (("<=").toList) then
          condCompareF evalNum c (("<=").toList) (fun l r => decide (l ≤ r)) st
        else if containsSub c ((">=").toList) then
          condCompareF evalNum c ((">=").toList) (fun l r => decide (r ≤ l)) st
        else if containsSub c (("==").toList) then
          condCompareF evalNum c (("==").toList) (fun l r => decide (l = r)) st
        else if containsSub c (("!=").toList) then
          condCompareF evalNum c (("!=").toList) (fun l r => decide (l ≠ r)) st
        else if containsChar c '<' ∧ ¬containsSub c (("<<").toList) then
          condCompareF evalNum c (("<").toList) (fun l r => decide (l < r)) st
        else if containsChar c '>' ∧ ¬containsSub c ((">>").toList) then
          condCompareF evalNum c ((">").toList) (fun l r => decide (r < l)) st
        else
          match evalNum c st with
          | .error er => .error er
          | .ok (v, st1) => .ok (decide (v ≠ 0), st1)

/-- `CInterpreter::evaluate_numeric_expression` from the `*ptr` check down
(the argument is already trimmed), parameterized by the numeric and
condition evaluators.  The array-element branch of the source falls
through to this tail with the side effects of the index evaluation
already applied. -/
def evaluateNumericRestF (evalNum : Str → St → Res Int)
    (evalCond : Str → St → Res Bool) (e : Str) (st : St) : Res Int :=
  match e with
  | '*' :: rest =>
    let ptrExpr := trim rest
    match lookupA st.vars ptrExpr with
    | some (.pointer addr) =>
      match st.memory.read addr with
      | .error er => .error er
      | .ok v =>
        match v with
        | .int i => .ok (i, st)
        | .float q => .ok (ratTruncToInt q, st)
        | .char c => .ok ((c.toNat : Int), st)
        | .bool b => .ok ((if b then 1 else 0 : Int), st)
        | _ => .error (errLit ("Cannot dereference to numeric value") (by decide))
    | _ => .error (errNotValidPointer ptrExpr)
  | '&' :: rest =>
    let varName := trim rest
    match lookupA st.vars varName with
    | some v =>
      let (addr, m') := st.memory.getAddressOf varName v
      .ok (addr, { st with memory := m' })
    | none => .error (errVarNotFound varName)
  | _ =>
    if containsChar e '?' ∧ containsChar e ':' then
      match findCharIdx e '?' with
      | none => .error panicUnreachable
      | some qPos =>
        match rfindCharIdx e ':' with
        | none => .error panicUnreachable
        | some cPos =>
          let condition := trim (e.take qPos)
          let trueExpr := trim (slice e (qPos + 1) cPos)
          let falseExpr := trim (e.drop (cPos + 1))
          match evalCond condition st with
          | .error er => .error er
          | .ok (b, st1) =>
            if b then evalNum trueExpr st1
            else evalNum falseExpr st1
    else if startsWithL e (['(']) ∧ e.getLast? = some ')' then
      evalNum (slice e 1 (e.length - 1)) st
    else
      match scanBitOr e with
      | some i =>
        match evalNum (e.take i) st with
        | .error er => .error er
        | .ok (l, st1) =>
          match evalNum (e.drop (i + 1)) st1 with
          | .error er => .error er
          | .ok (r, st2) => .ok (Int.lor l r, st2)
      | none =>
      match scanBitAnd e with
      | some i =>
        match evalNum (e.take i) st with
        | .error er => .error er
        | .ok (l, st1) =>
          match evalNum (e.drop (i + 1)) st1 with
          | .error er => .error er
          | .ok (r, st2) => .ok (Int.land l r, st2)
      | none =>
      match scanXor e with
      | some i =>
        match evalNum (e.take i) st with
        | .error er => .error er
        | .ok (l, st1) =>
          match evalNum (e.drop (i + 1)) st1 with
          | .error er => .error er
          | .ok (r, st2) => .ok (Int.xor l r, st2)
      | none =>
      if containsSub e (("<<").toList) then
        match splitFirst e (("<<").toList) with
        | none => .error panicUnreachable
        | some (l, r) =>
          match evalNum (trim l) st with
          | .error er => .error er
          | .ok (lv, st1) =>
            match evalNum (trim r) st1 with
            | .error er => .error er
            | .ok (rv, st2) => .ok (rustShl lv rv, st2)
      else if containsSub e ((">>").toList) then
        match splitFirst e ((">>").toList) with
        | none => .error panicUnreachable
        | some (l, r) =>
          match evalNum (trim l) st with
          | .error er => .error er
          | .ok (lv, st1) =>
            match evalNum (trim r) st1 with
            | .error er => .error er
            | .ok (rv, st2) => .ok (rustShr lv rv, st2)
      else
        match scanAddSub e with
        | some i =>
          match evalNum (e.take i) st with
          | .error er => .error er
          | .ok (l, st1) =>
            match evalNum (e.drop (i + 1)) st1 with
            | .error er => .error er
            | .ok (r, st2) =>
              if e.getD i ' ' = '+' then .ok (l + r, st2)
              else .ok (l - r, st2)
        | none =>
        match scanMulDivRem e with
        | some i =>
          match evalNum (e.take i) st with
          | .error er => .error er
          | .ok (l, st1) =>
            match evalNum (e.drop (i + 1)) st1 with
            | .error er => .error er
            | .ok (r, st2) =>
              if e.getD i ' ' = '*' then .ok (l * r, st2)
              else if e.getD i ' ' = '/' then
                if r = 0 then .error (errLit ("Error: Division by zero") (by decide))
                else .ok (rustDiv l r, st2)
              else
                if r = 0 then .error panicRemZero
                else .ok (rustRem l r, st2)
        | none =>
        match e with
        | '-' :: rest =>
          match evalNum rest st with
          | .error er => .error er
          | .ok (v, st1) => .ok (-v, st1)
        | '~' :: rest =>
          match evalNum rest st with
          | .error er => .error er
          | .ok (v, st1) => .ok (rustNot v, st1)
        | _ => .error (errCannotEval e)

/-- `CInterpreter::evaluate_numeric_expression`: literals, variables and
array elements here; everything else in `evaluateNumericRestF`, which
receives this function (one fuel step down) for its subexpressions. -/
def evaluateNumeric : Nat → Str → St → Res Int
  | 0, _, _ => .error .fuelE
  | f + 1, expr, st =>
    let e := trim expr
    match parseI64 e with
    | some n => .ok (n, st)
    | none =>
    match parseF64 e with
    | some q => .ok (ratTruncToInt q, st)
    | none =>
    match lookupA st.vars e with
    | some (.int i) => .ok (i, st)
    | some (.float q) => .ok (ratTruncToInt q, st)
    | some (.char c) => .ok ((c.toNat : Int), st)
    | some (.bool b) => .ok ((if b then 1 else 0 : Int), st)
    | some (.str _) => .error (errLit ("Cannot convert string to number") (by decide))
    | some (.array _) => .error (errLit ("Cannot convert array to number") (by decide))
    | some (.pointer a) => .ok (a, st)
    | none =>
    if containsChar e '[' then
      match findCharIdx e '[' with
      | none => .error panicUnreachable
      | some bp =>
        let varName := trim (e.take bp)
        match findCharIdx e ']' with
        | none => .error (errLit ("Invalid array syntax") (by decide))
        | some be =>
          let indexExpr := slice e (bp + 1) be
          match evaluateNumeric f indexExpr st with
          | .error er => .error er
          | .ok (iv, st1) =>
            let idx := asUsize iv
            match lookupA st1.vars varName with
            | some (.array arr) =>
              if h : idx < arr.length then
                match arr.get ⟨idx, h⟩ with
                | .int i => .ok (i, st1)
                | .float q => .ok (ratTruncToInt q, st1)
                | .char c => .ok ((c.toNat : Int), st1)
                | .bool b => .ok ((if b then 1 else 0 : Int), st1)
                | _ => .error (errLit ("Invalid array element type") (by decide))
              else
                evaluateNumericRestF (evaluateNumeric f)
                  (evaluateConditionF (evaluateNumeric f) f) e st1
            | _ =>
              evaluateNumericRestF (evaluateNumeric f)
                (evaluateConditionF (evaluateNumeric f) f) e st1
    else
      evaluateNumericRestF (evaluateNumeric f)
        (evaluateConditionF (evaluateNumeric f) f) e st

/-- `CInterpreter::evaluate_condition` (the user-facing entry point). -/
def evaluateCondition (fuel : Nat) (condition : Str) (st : St) : Res Bool :=
  evaluateConditionF (evaluateNumeric fuel) fuel condition st

/-- `CInterpreter::evaluate_value_expression`. -/
def evaluateValue (fuel : Nat) (expr : Str) (st : St) : Res Value :=
  let e := trim expr
  if e.head? = some qChar ∧ e.getLast? = some qChar then
    .ok (.str (trimMatches e qChar), st)
  else if e.head? = some aChar ∧ e.getLast? = some aChar then
    .ok (.char ((trimMatches e aChar).headD (Char.ofNat 0)), st)
  else
    match lookupA st.vars e with
    | some v => .ok (v, st)
    | none =>
      match evaluateNumeric fuel e st with
      | .error er => .error er
      | .ok (n, st1) => .ok (.int n, st1)

/-- Tail of `evaluate_pointer_expression`: the direct-pointer-variable
check and the numeric fallback, shared by its two fall-through paths. -/
def evaluatePointerTail (fuel : Nat) (e : Str) (st : St) : Res Value :=
  match lookupA st.vars e with
  | some (.pointer addr) => .ok (.pointer addr, st)
  | _ =>
    match evaluateNumeric fuel e st with
    | .error er => .error er
    | .ok (n, st1) => .ok (.pointer n, st1)

/-- `CInterpreter::evaluate_pointer_expression`. -/
def evaluatePointer (fuel : Nat) (expr : Str) (st : St) : Res Value :=
  let e := trim expr
  if e = ("NULL").toList ∨ e = ("0").toList then .ok (.pointer 0, st)
  else
    match e with
    | '&' :: rest =>
      let varName := trim rest
      if containsChar varName '[' then
        match findCharIdx varName '[' with
        | none => .error panicUnreachable
        | some bp =>
          let arrayName := trim (varName.take bp)
          match findCharIdx varName ']' with
          | none => .error (errLit ("Invalid array syntax") (by decide))
          | some be =>
            let indexExpr := slice varName (bp + 1) be
            match evaluateNumeric fuel indexExpr st with
            | .error er => .error er
            | .ok (iv, st1) =>
              let idx := asUsize iv
              match lookupA st1.memory.addressMap arrayName with
              | some baseAddr => .ok (.pointer (baseAddr + (idx : Int) * 8), st1)
              | none => .error (errVarNotFound arrayName)
      else
        match lookupA st.vars varName with
        | some v =>
          let (addr, m') := st.memory.getAddressOf varName v
          .ok (.pointer addr, { st with memory := m' })
        | none => .error (errVarNotFound varName)
    | '*' :: rest =>
      let ptrExpr := trim rest
      match lookupA st.vars ptrExpr with
      | some (.pointer addr) =>
        match st.memory.read addr with
        | .error er => .error er
        | .ok _ => .ok (.pointer addr, st)
      | _ => evaluatePointerTail fuel e st
    | _ => evaluatePointerTail fuel e st

/-! ## `printf` engine -/

/-- The fixed specifier scan order of `handle_printf`. -/
def formatSpecs : List Str :=
  [("%p").toList, ("%d").toList, ("%i").toList, ("%f").toList,
   ("%lf").toList, ("%c").toList, ("%s").toList, ("%ld").toList,
   ("%u").toList, ("%x").toList, ("%o").toList]

/-- Display of an `f64` (`f.to_string()`), not modelled faithfully: the
exact rendering of a double is irrelevant to every claim, so the rational
is shown as `num/den`. -/
def floatStr (q : Rat) : Str := intDec q.num ++ ('/' :: natDec q.den)

/-- Formatting of one argument for one specifier (the `match value` of
`handle_printf`). -/
def formatValue (spec : Str) (v : Value) : Str :=
  match v with
  | .int i =>
    if spec = ("%x").toList then intHex i
    else if spec = ("%o").toList then intOct i
    else intDec i
  | .float f => floatStr f
  | .char c => [c]
  | .str s => s
  | .bool b => if b then ("1").toList else ("0").toList
  | .array _ => ("[array]").toList
  | .pointer addr =>
    if spec = ("%x").toList then intHex addr
    else '0' :: 'x' :: intHex addr

/-- The inner `while result.contains(spec) && arg_index < parts.len()`
loop of `handle_printf` for a single specifier: while an occurrence and an
unused argument remain, evaluate the argument, replace the leftmost
occurrence, advance the cursor. -/
def printfSpecLoop (fuel : Nat) (spec : Str) :
    Str → List Str → St → Except Err ((Str × List Str) × St)
  | result, [], st => .ok ((result, []), st)
  | result, arg :: rest, st =>
    if containsSub result spec then
      match evaluateValue fuel arg st with
      | .error er => .error er
      | .ok (v, st1) =>
        printfSpecLoop fuel spec
          (replaceFirstOcc result spec (formatValue spec v)) rest st1
    else .ok ((result, arg :: rest), st)

/-- The outer `for spec in format_specs` loop of `handle_printf`. -/
def printfSpecsLoop (fuel : Nat) :
    List Str → Str → List Str → St → Except Err (Str × St)
  | [], result, _, st => .ok (result, st)
  | spec :: more, result, remaining, st =>
    match printfSpecLoop fuel spec result remaining st with
    | .error er => .error er
    | .ok ((result', remaining'), st') =>
      printfSpecsLoop fuel more result' remaining' st'

/-- `CInterpreter::handle_printf`. -/
def handlePrintf (fuel : Nat) (stmt : Str) (st : St) : Res Unit :=
  match findCharIdx stmt '(' with
  | none => .error (errLit ("Error: Invalid printf syntax") (by decide))
  | some start =>
    match rfindCharIdx stmt ')' with
    | none => .error (errLit ("Error: Invalid printf syntax") (by decide))
    | some stop =>
      let args := slice stmt (start + 1) stop
      let parts := splitArgs args
      match parts with
      | [] => .ok ((), st)
      | fmt :: rest =>
        let formatStr := trimMatches (trimMatches fmt qChar) aChar
        let r := formatStr
        let r := replaceAll r [bsChar, 'n'] ['\n']
        let r := replaceAll r [bsChar, 't'] ['\t']
        let r := replaceAll r [bsChar, bsChar] [bsChar]
        let r := replaceAll r [bsChar, 'r'] ['\r']
        let r := replaceAll r [bsChar, '0'] [Char.ofNat 0]
        match printfSpecsLoop fuel formatSpecs r rest st with
        | .error er => .error er
        | .ok (result, st') =>
          .ok ((), { st' with output := st'.output ++ result })

/-! ## Library-call and statement handlers -/

/-- `CInterpreter::handle_scanf` (a no-op). -/
def handleScanf (st : St) : Res Unit := .ok ((), st)

/-- `CInterpreter::handle_puts`. -/
def handlePuts (stmt : Str) (st : St) : Res Unit :=
  match findCharIdx stmt '(' with
  | none => .error (errLit ("Invalid puts syntax") (by decide))
  | some start =>
    match rfindCharIdx stmt ')' with
    | none => .error (errLit ("Invalid puts syntax") (by decide))
    | some stop =>
      let content := trimMatches (slice stmt (start + 1) stop) qChar
      .ok ((), { st with output := st.output ++ content ++ ['\n'] })

/-- `CInterpreter::handle_gets` (a no-op). -/
def handleGets (st : St) : Res Unit := .ok ((), st)

/-- Rust `str::split_whitespace`. -/
def splitWsAux : List Char → Str → List Str
  | [], cur => if cur.isEmpty then [] else [cur.reverse]
  | c :: t, cur =>
    if isWs c then
      if cur.isEmpty then splitWsAux t [] else cur.reverse :: splitWsAux t []
    else splitWsAux t (c :: cur)

/-- Rust `str::split_whitespace` as a list of words. -/
def splitWs (s : Str) : List Str := splitWsAux s []

/-- The `var_part.split_whitespace().last().unwrap()` pattern shared by
`handle_strlen`, `handle_math_function` and `handle_rand`. -/
def lastWordOrSelf (varPart : Str) : Str :=
  if containsChar varPart ' ' then (splitWs varPart).getLastD []
  else varPart

/-- `CInterpreter::handle_strlen`. -/
def handleStrlen (stmt : Str) (st : St) : Res Unit :=
  if containsChar stmt '=' then
    let parts := splitAllChar stmt '='
    let varPart := trim (parts.headD [])
    let varName := lastWordOrSelf varPart
    let strlenPart := trim (parts.getD 1 [])
    match findCharIdx strlenPart '(' with
    | none => .error (errLit ("Invalid strlen syntax") (by decide))
    | some start =>
      match rfindCharIdx strlenPart ')' with
      | none => .error (errLit ("Invalid strlen syntax") (by decide))
      | some stop =>
        let arg := trim (slice strlenPart (start + 1) stop)
        let length : Int :=
          if arg.head? = some qChar then (trimMatches arg qChar).length
          else
            match lookupA st.vars arg with
            | some (.str s) => s.length
            | _ => 0
        .ok ((), { st with vars := insertA st.vars varName (.int length) })
  else .ok ((), st)

/-- `CInterpreter::handle_strcpy`. -/
def handleStrcpy (stmt : Str) (st : St) : Res Unit :=
  match findCharIdx stmt '(' with
  | none => .error (errLit ("Invalid strcpy syntax") (by decide))
  | some start =>
    match rfindCharIdx stmt ')' with
    | none => .error (errLit ("Invalid strcpy syntax") (by decide))
    | some stop =>
      let args := splitArgs (slice stmt (start + 1) stop)
      match args with
      | dest :: src :: _ =>
        let dest := trim dest
        let src := trim src
        let srcValue :=
          if src.head? = some qChar then Value.str (trimMatches src qChar)
          else (lookupA st.vars src).getD (Value.str [])
        .ok ((), { st with vars := insertA st.vars dest srcValue })
      | _ => .ok ((), st)

/-- `CInterpreter::handle_strcmp` (placeholder no-op in the source). -/
def handleStrcmp (st : St) : Res Unit := .ok ((), st)

/-- `CInterpreter::handle_strcat`. -/
def handleStrcat (stmt : Str) (st : St) : Res Unit :=
  match findCharIdx stmt '(' with
  | none => .error (errLit ("Invalid strcat syntax") (by decide))
  | some start =>
    match rfindCharIdx stmt ')' with
    | none => .error (errLit ("Invalid strcat syntax") (by decide))
    | some stop =>
      let args := splitArgs (slice stmt (start + 1) stop)
      match args with
      | dest :: src :: _ =>
        let dest := trim dest
        let src := trim src
        match lookupA st.vars dest with
        | some (.str destStr) =>
          let srcStr :=
            if src.head? = some qChar then trimMatches src qChar
            else
              match lookupA st.vars src with
              | some (.str s) => s
              | _ => []
          .ok ((), { st with
                     vars := insertA st.vars dest (.str (destStr ++ srcStr)) })
        | _ => .ok ((), st)
      | _ => .ok ((), st)

/-- A transcendental `f64` operation (`sqrt`, `powf`, `exp`, `ln`, `sin`,
`cos`, `tan`).  Not modelled: no claim depends on a float value, so the
result is a fixed rational. -/
def transcendental (_ : Rat) : Rat := 0

/-- Extract the single `(...)` argument of a math call and evaluate it
(shared shape of the `handle_math_function` branches). -/
def mathArg (fuel : Nat) (expr : Str) (errName : String)
    (h : errName.toList ≠ []) (st : St) : Res Int :=
  match findCharIdx expr '(' with
  | none => .error (.interp errName.toList h)
  | some start =>
    match rfindCharIdx expr ')' with
    | none => .error (.interp errName.toList h)
    | some stop => evaluateNumeric fuel (slice expr (start + 1) stop) st

/-- `CInterpreter::handle_math_function`. -/
def handleMath (fuel : Nat) (stmt : Str) (st : St) : Res Unit :=
  if ¬containsChar stmt '=' then .ok ((), st)
  else
    let parts := splitAllChar stmt '='
    let varTypeName := trim (parts.headD [])
    let varName := lastWordOrSelf varTypeName
    let expr := trim (parts.getD 1 [])
    if containsSub expr (("sqrt").toList) then
      match mathArg fuel expr ("Invalid sqrt syntax") (by decide) st with
      | .error er => .error er
      | .ok (v, st1) =>
        .ok ((), { st1 with
                   vars := insertA st1.vars varName (.float (transcendental v)) })
    else if containsSub expr (("pow").toList) then
      match findCharIdx expr '(' with
      | none => .error (errLit ("Invalid pow syntax") (by decide))
      | some start =>
        match rfindCharIdx expr ')' with
        | none => .error (errLit ("Invalid pow syntax") (by decide))
        | some stop =>
          let args := splitArgs (slice expr (start + 1) stop)
          match args with
          | [b, e] =>
            match evaluateNumeric fuel (trim b) st with
            | .error er => .error er
            | .ok (_, st1) =>
              match evaluateNumeric fuel (trim e) st1 with
              | .error er => .error er
              | .ok (_, st2) =>
                .ok ((), { st2 with
                           vars := insertA st2.vars varName
                             (.float (transcendental 0)) })
          | _ => .ok ((), st)
    else if containsSub expr (("abs").toList) ∨
            containsSub expr (("fabs").toList) then
      match mathArg fuel expr ("Invalid abs syntax") (by decide) st with
      | .error er => .error er
      | .ok (v, st1) =>
        if containsSub expr (("fabs").toList) then
          .ok ((), { st1 with
                     vars := insertA st1.vars varName (.float |(v : Rat)|) })
        else
          .ok ((), { st1 with vars := insertA st1.vars varName (.int |v|) })
    else if containsSub expr (("ceil").toList) then
      match mathArg fuel expr ("Invalid ceil syntax") (by decide) st with
      | .error er => .error er
      | .ok (v, st1) =>
        .ok ((), { st1 with vars := insertA st1.vars varName (.float (v : Rat)) })
    else if containsSub expr (("floor").toList) then
      match mathArg fuel expr ("Invalid floor syntax") (by decide) st with
      | .error er => .error er
      | .ok (v, st1) =>
        .ok ((), { st1 with vars := insertA st1.vars varName (.float (v : Rat)) })
    else if containsSub expr (("exp").toList) then
      match mathArg fuel expr ("Invalid exp syntax") (by decide) st with
      | .error er => .error er
      | .ok (v, st1) =>
        .ok ((), { st1 with
                   vars := insertA st1.vars varName (.float (transcendental v)) })
    else if containsSub expr (("log").toList) then
      match mathArg fuel expr ("Invalid log syntax") (by decide) st with
      | .error er => .error er
      | .ok (v, st1) =>
        .ok ((), { st1 with
                   vars := insertA st1.vars varName (.float (transcendental v)) })
    else if containsSub expr (("sin").toList) then
      match mathArg fuel expr ("Invalid sin syntax") (by decide) st with
      | .error er => .error er
      | .ok (v, st1) =>
        .ok ((), { st1 with
                   vars := insertA st1.vars varName (.float (transcendental v)) })
    else if containsSub expr (("cos").toList) then
      match mathArg fuel expr ("Invalid cos syntax") (by decide) st with
      | .error er => .error er
      | .ok (v, st1) =>
        .ok ((), { st1 with
                   vars := insertA st1.vars varName (.float (transcendental v)) })
    else if containsSub expr (("tan").toList) then
      match mathArg fuel expr ("Invalid tan syntax") (by decide) st with
      | .error er => .error er
      | .ok (v, st1) =>
        .ok ((), { st1 with
                   vars := insertA st1.vars varName (.float (transcendental v)) })
    else .ok ((), st)

/-- The pseudo-random value of `handle_rand`: the source hashes the output
length with `DefaultHasher` (SipHash) and reduces modulo 32768.  The hash
itself is not modelled (no claim depends on the value); the reduction is. -/
def randOf (outputLen : Nat) : Int := (outputLen : Int).emod 32768

/-- `CInterpreter::handle_rand`. -/
def handleRand (stmt : Str) (st : St) : Res Unit :=
  if containsChar stmt '=' then
    let parts := splitAllChar stmt '='
    let varPart := trim (parts.headD [])
    let varName := lastWordOrSelf varPart
    .ok ((), { st with
               vars := insertA st.vars varName (.int (randOf st.output.length)) })
  else .ok ((), st)

/-- `CInterpreter::handle_srand` (a no-op). -/
def handleSrand (st : St) : Res Unit := .ok ((), st)

/-- `CInterpreter::handle_increment_decrement` (updates only the
environment; memory is untouched). -/
def handleIncDec (stmt : Str) (st : St) : Res Unit :=
  if containsSub stmt (("++").toList) then
    let varName := trim (replaceAll stmt (("++").toList) [])
    match lookupA st.vars varName with
    | some (.int i) =>
      .ok ((), { st with vars := insertA st.vars varName (.int (i + 1)) })
    | some (.float f) =>
      .ok ((), { st with vars := insertA st.vars varName (.float (f + 1)) })
    | _ => .ok ((), st)
  else if containsSub stmt (("--").toList) then
    let varName := trim (replaceAll stmt (("--").toList) [])
    match lookupA st.vars varName with
    | some (.int i) =>
      .ok ((), { st with vars := insertA st.vars varName (.int (i - 1)) })
    | some (.float f) =>
      .ok ((), { st with vars := insertA st.vars varName (.float (f - 1)) })
    | _ => .ok ((), st)
  else .ok ((), st)

/-! ## Declarations, compound assignment, assignment -/

/-- Rust `num as u8 as char` (truncation to the low byte). -/
def intToCharCast (v : Int) : Char := Char.ofNat ((v.emod 256).toNat)

/-- `CInterpreter::handle_declaration`. -/
def handleDeclaration (fuel : Nat) (stmt : Str) (st : St) : Res Unit :=
  let s := trim stmt
  let parsed : Option (String × Str) :=
    if startsWithL s (("int ").toList) then some (("int"), s.drop 4)
    else if startsWithL s (("float ").toList) then some (("float"), s.drop 6)
    else if startsWithL s (("double ").toList) then some (("double"), s.drop 7)
    else if startsWithL s (("char ").toList) then some (("char"), s.drop 5)
    else if startsWithL s (("long ").toList) then some (("long"), s.drop 5)
    else if startsWithL s (("short ").toList) then some (("short"), s.drop 6)
    else none
  match parsed with
  | none => .error (errLit ("Unknown type") (by decide))
  | some (varType, rest) =>
    let rest := trim rest
    let isPointer := rest.head? = some '*'
    let rest := if isPointer then trim (trimStartMatches rest '*') else rest
    if containsChar rest '[' ∧ ¬isPointer then
      match findCharIdx rest '[' with
      | none => .error panicUnreachable
      | some bp =>
        let varName := trim (rest.take bp)
        match findCharIdx rest ']' with
        | none => .error (errLit ("Invalid array syntax") (by decide))
        | some be =>
          let sizeStr := slice rest (bp + 1) be
          let sizeRes : Res Nat :=
            if sizeStr.isEmpty then .ok (0, st)
            else
              match evaluateNumeric fuel sizeStr st with
              | .error er => .error er
              | .ok (v, st1) => .ok (asUsize v, st1)
          match sizeRes with
          | .error er => .error er
          | .ok (size, st1) =>
            let defaultValue : Value :=
              if varType = ("float") ∨ varType = ("double") then .float 0
              else if varType = ("char") then .char (Char.ofNat 0)
              else .int 0
            let arrayValue := Value.array (List.replicate size defaultValue)
            let (addr, m1) := st1.memory.allocate arrayValue
            let m2 := { m1 with addressMap := insertA m1.addressMap varName addr }
            .ok ((), { { st1 with memory := m2 } with
                       vars := insertA st1.vars varName arrayValue })
    else
      match findCharIdx rest '=' with
      | some eqPos =>
        let varName := trim (rest.take eqPos)
        let expr := trim (rest.drop (eqPos + 1))
        let valueRes : Res Value :=
          if isPointer then evaluatePointer fuel expr st
          else if varType = ("float") ∨ varType = ("double") then
            match evaluateNumeric fuel expr st with
            | .error er => .error er
            | .ok (v, st1) => .ok (.float (v : Rat), st1)
          else if varType = ("char") then
            if expr.head? = some aChar then
              .ok (.char ((trimMatches expr aChar).headD (Char.ofNat 0)), st)
            else
              match evaluateNumeric fuel expr st with
              | .error er => .error er
              | .ok (v, st1) => .ok (.char (intToCharCast v), st1)
          else
            match evaluateNumeric fuel expr st with
            | .error er => .error er
            | .ok (v, st1) => .ok (.int v, st1)
        match valueRes with
        | .error er => .error er
        | .ok (value, st1) =>
          let st2 :=
            if isPointer then st1
            else
              let (_, m1) := st1.memory.getAddressOf varName value
              { st1 with memory := m1.updateVariableAddress varName value }
          .ok ((), { st2 with vars := insertA st2.vars varName value })
      | none =>
        let varName := trim rest
        let value : Value :=
          if isPointer then .pointer 0
          else if varType = ("float") ∨ varType = ("double") then .float 0
          else if varType = ("char") then .char (Char.ofNat 0)
          else .int 0
        let st1 :=
          if isPointer then st
          else
            let (_, m1) := st.memory.getAddressOf varName value
            { st with memory := m1.updateVariableAddress varName value }
        .ok ((), { st1 with vars := insertA st1.vars varName value })

/-- One `op` candidate of `handle_compound_assignment`; `o` selects the
arithmetic as in the source `match`. -/
def compoundLoop (fuel : Nat) (stmt : Str) (st : St) : List Str → Res Unit
  | [] => .ok ((), st)
  | op :: more =>
    if containsSub stmt op then
      match splitFirst stmt op with
      | none => .error panicUnreachable
      | some (l, r) =>
        let varName := trim l
        let expr := trim r
        match evaluateNumeric fuel varName st with
        | .error er => .error er
        | .ok (currentVal, st1) =>
          match evaluateNumeric fuel expr st1 with
          | .error er => .error er
          | .ok (exprVal, st2) =>
            let resultRes : Except Err Int :=
              if op = ("+=").toList then .ok (currentVal + exprVal)
              else if op = ("-=").toList then .ok (currentVal - exprVal)
              else if op = ("*=").toList then .ok (currentVal * exprVal)
              else if op = ("/=").toList then
                if exprVal = 0 then
                  .error (errLit ("Division by zero") (by decide))
                else .ok (rustDiv currentVal exprVal)
              else if op = ("%=").toList then
                if exprVal = 0 then .error panicRemZero
                else .ok (rustRem currentVal exprVal)
              else .ok currentVal
            match resultRes with
            | .error er => .error er
            | .ok result =>
              .ok ((), { st2 with
                         vars := insertA st2.vars varName (.int result) })
    else compoundLoop fuel stmt st more

/-- `CInterpreter::handle_compound_assignment`. -/
def handleCompound (fuel : Nat) (stmt : Str) (st : St) : Res Unit :=
  compoundLoop fuel stmt st
    [("+=").toList, ("-=").toList, ("*=").toList, ("/=").toList,
     ("%=").toList]

/-- First entry of `address_map` recording exactly the address `addr`
(the source iterates the `HashMap` and stops at the first hit; the map is
injective in reachable states, so the iteration order is immaterial). -/
def findAddrName : List (Str × Int) → Int → Option Str
  | [], _ => none
  | (n, a) :: t, addr => if a = addr then some n else findAddrName t addr

/-- The right-hand-side evaluation shared by the `*ptr = expr` and
new-variable branches of `handle_assignment`: string literal, char
literal, address expression, existing variable (only on the pointer path),
else numeric. -/
def assignRhsValue (fuel : Nat) (expr : Str) (useVarLookup : Bool)
    (st : St) : Res Value :=
  if expr.head? = some qChar then .ok (.str (trimMatches expr qChar), st)
  else if expr.head? = some aChar then
    .ok (.char ((trimMatches expr aChar).headD (Char.ofNat 0)), st)
  else if expr.head? = some '&' then evaluatePointer fuel expr st
  else if useVarLookup then
    match lookupA st.vars expr with
    | some v => .ok (v, st)
    | none =>
      match evaluateNumeric fuel expr st with
      | .error er => .error er
      | .ok (n, st1) => .ok (.int n, st1)
  else
    match evaluateNumeric fuel expr st with
    | .error er => .error er
    | .ok (n, st1) => .ok (.int n, st1)

/-- The in-range/out-of-range core of the array-element branch of
`handle_assignment`, entered after the index and the right-hand side have
been evaluated: update the element (and its heap mirror when the element
address happens to be a heap key); an out-of-range index updates nothing
and raises no error. -/
def arrayAssignCore (varName : Str) (idx : Nat) (value : Value) (st : St) :
    Res Unit :=
  match lookupA st.vars varName with
  | some (.array arr) =>
    if idx < arr.length then
      let arr' := arr.set idx value
      let st1 := { st with vars := insertA st.vars varName (.array arr') }
      match lookupA st1.memory.addressMap varName with
      | some baseAddr =>
        let elementAddr := baseAddr + (idx : Int) * 8
        if containsA st1.memory.heap elementAddr then
          match st1.memory.write elementAddr value with
          | .error er => .error er
          | .ok m' => .ok ((), { st1 with memory := m' })
        else .ok ((), st1)
      | none => .ok ((), st1)
    else .ok ((), st)
  | _ => .ok ((), st)

/-- The `let value = match existing_value` coercion of the
existing-variable branch of `handle_assignment`: the right-hand side read
at the existing value's type. -/
def assignCoerce (fuel : Nat) (existingValue : Value) (expr : Str)
    (st : St) : Res Value :=
  match existingValue with
  | .float _ =>
    match evaluateNumeric fuel expr st with
    | .error er => .error er
    | .ok (v, st1) => .ok (.float (v : Rat), st1)
  | .char _ =>
    if expr.head? = some aChar then
      .ok (.char ((trimMatches expr aChar).headD (Char.ofNat 0)), st)
    else
      match evaluateNumeric fuel expr st with
      | .error er => .error er
      | .ok (v, st1) => .ok (.char (intToCharCast v), st1)
  | .str _ =>
    if expr.head? = some qChar then .ok (.str (trimMatches expr qChar), st)
    else .ok (existingValue, st)
  | .pointer _ => evaluatePointer fuel expr st
  | _ =>
    match evaluateNumeric fuel expr st with
    | .error er => .error er
    | .ok (v, st1) => .ok (.int v, st1)

/-- The existing-variable branch of `handle_assignment` (source lines
1389–1425): coerce the right-hand side to the existing value's type,
store it in the environment, and mirror it into memory when the variable
has a recorded address. -/
def assignExisting (fuel : Nat) (varName : Str) (existingValue : Value)
    (expr : Str) (st : St) : Res Unit :=
  match assignCoerce fuel existingValue expr st with
  | .error er => .error er
  | .ok (value, st1) =>
    let st2 := { st1 with vars := insertA st1.vars varName value }
    match lookupA st2.memory.addressMap varName with
    | some addr =>
      match st2.memory.write addr value with
      | .error er => .error er
      | .ok m' => .ok ((), { st2 with memory := m' })
    | none => .ok ((), st2)

/-- `CInterpreter::handle_assignment`. -/
def handleAssignment (fuel : Nat) (stmt : Str) (st : St) : Res Unit :=
  match splitFirst stmt (['=']) with
  | none => .error (errLit ("Error: Invalid assignment syntax") (by decide))
  | some (lRaw, rRaw) =>
    let left := trim lRaw
    let expr := trim rRaw
    match left with
    | '*' :: lrest =>
      let ptrName := trim lrest
      match lookupA st.vars ptrName with
      | some (.pointer addr) =>
        match assignRhsValue fuel expr true st with
        | .error er => .error er
        | .ok (value, st1) =>
          match st1.memory.write addr value with
          | .error er => .error er
          | .ok m' =>
            let st2 := { st1 with memory := m' }
            match findAddrName st2.memory.addressMap addr with
            | some name =>
              .ok ((), { st2 with vars := insertA st2.vars name value })
            | none => .ok ((), st2)
      | _ => .error (errNotValidPointer ptrName)
    | _ =>
      if containsChar left '[' then
        match findCharIdx left '[' with
        | none => .error panicUnreachable
        | some bp =>
          let varName := trim (left.take bp)
          match findCharIdx left ']' with
          | none => .error (errLit ("Invalid array syntax") (by decide))
          | some be =>
            let indexExpr := slice left (bp + 1) be
            match evaluateNumeric fuel indexExpr st with
            | .error er => .error er
            | .ok (iv, st1) =>
              match assignRhsValue fuel expr false st1 with
              | .error er => .error er
              | .ok (value, st2) =>
                arrayAssignCore varName (asUsize iv) value st2
      else
        let varName := left
        let isPointerVar :=
          match lookupA st.vars varName with
          | some (.pointer _) => true
          | _ => false
        if expr.head? = some '&' ∨ isPointerVar = true then
          match evaluatePointer fuel expr st with
          | .error er => .error er
          | .ok (value, st1) =>
            .ok ((), { st1 with vars := insertA st1.vars varName value })
        else
          match lookupA st.vars varName with
          | some existingValue =>
            assignExisting fuel varName existingValue expr st
          | none =>
            match assignRhsValue fuel expr false st with
            | .error er => .error er
            | .ok (value, st1) =>
              let (_, m1) := st1.memory.getAddressOf varName value
              let m2 := m1.updateVariableAddress varName value
              .ok ((), { { st1 with memory := m2 } with
                         vars := insertA st1.vars varName value })

/-! ## Statement dispatch -/

/-- The math-library dispatch condition of `execute_statement`. -/
def mathGuard (s : Str) : Bool :=
  containsSub s (("sqrt").toList) || containsSub s (("pow").toList) ||
  containsSub s (("abs").toList) || containsSub s (("sin").toList) ||
  containsSub s (("cos").toList) || containsSub s (("tan").toList) ||
  containsSub s (("ceil").toList) || containsSub s (("floor").toList) ||
  containsSub s (("exp").toList) || containsSub s (("log").toList) ||
  containsSub s (("fabs").toList)

/-- `CInterpreter::is_declaration`, also the declaration dispatch guard. -/
def isDeclarationB (s : Str) : Bool :=
  startsWithL s (("int ").toList) || startsWithL s (("float ").toList) ||
  startsWithL s (("double ").toList) || startsWithL s (("char ").toList) ||
  startsWithL s (("long ").toList) || startsWithL s (("short ").toList)

/-- The compound-assignment dispatch guard. -/
def compoundGuard (s : Str) : Bool :=
  containsSub s (("+=").toList) || containsSub s (("-=").toList) ||
  containsSub s (("*=").toList) || containsSub s (("/=").toList) ||
  containsSub s (("%=").toList)

/-- The plain-assignment dispatch guard. -/
def assignGuard (s : Str) : Bool :=
  containsChar s '=' && !isDeclarationB s &&
  !containsSub s (("==").toList) && !containsSub s (("!=").toList) &&
  !containsSub s (("<=").toList) && !containsSub s ((">=").toList)

/-- The increment/decrement dispatch guard. -/
def incDecGuard (s : Str) : Bool :=
  containsSub s (("++").toList) || containsSub s (("--").toList)

/-- `CInterpreter::execute_statement`: trim, strip trailing semicolons,
then dispatch down the priority list; a statement matching no rule is
accepted unchanged. -/
def executeStatement (fuel : Nat) (stmt : Str) (st : St) : Res Unit :=
  match fuel with
  | 0 => .error .fuelE
  | f + 1 =>
    let s := trimEndMatches (trim stmt) ';'
    if s.isEmpty then .ok ((), st)
    else if s = ("break").toList then .ok ((), { st with loopBreak := true })
    else if s = ("continue").toList then
      .ok ((), { st with loopContinue := true })
    else if containsSub s (("printf").toList) then handlePrintf f s st
    else if containsSub s (("scanf").toList) then handleScanf st
    else if containsSub s (("puts").toList) then handlePuts s st
    else if containsSub s (("gets").toList) then handleGets st
    else if containsSub s (("strlen").toList) then handleStrlen s st
    else if containsSub s (("strcpy").toList) then handleStrcpy s st
    else if containsSub s (("strcmp").toList) then handleStrcmp st
    else if containsSub s (("strcat").toList) then handleStrcat s st
    else if mathGuard s then handleMath f s st
    else if containsSub s (("rand").toList) then handleRand s st
    else if containsSub s (("srand").toList) then handleSrand st
    else if isDeclarationB s then handleDeclaration f s st
    else if compoundGuard s then handleCompound f s st
    else if assignGuard s then handleAssignment f s st
    else if incDecGuard s then handleIncDec s st
    else if startsWithL s (("return").toList) then .ok ((), st)
    else .ok ((), st)

/-- The statement loop of `execute_statements`: run each statement in turn,
stopping early when a break or continue is pending. -/
def stmtsLoop (fuel : Nat) : List Str → St → Res Unit
  | [], st => .ok ((), st)
  | stmt :: rest, st =>
    if st.loopBreak || st.loopContinue then .ok ((), st)
    else
      match executeStatement fuel stmt st with
      | .error er => .error er
      | .ok (_, st1) => stmtsLoop fuel rest st1

/-- `CInterpreter::handle_switch_statement` line walk: `execRemaining` is
the source's `execute_remaining` fall-through flag. -/
def switchAux (fuel : Nat) (switchValue : Int) :
    List Str → Bool → St → Res Unit
  | [], _, st => .ok ((), st)
  | line :: rest, execRemaining, st =>
    let l := trim line
    if startsWithL l (("case").toList) then
      let caseValueStr := trimEndMatches (trim (l.drop 4)) ':'
      match parseI64 caseValueStr with
      | some caseValue =>
        if caseValue = switchValue ∨ execRemaining then
          switchAux fuel switchValue rest true st
        else switchAux fuel switchValue rest execRemaining st
      | none => switchAux fuel switchValue rest execRemaining st
    else if startsWithL l (("default:").toList) then
      switchAux fuel switchValue rest true st
    else if l = ("break;").toList ∧ execRemaining then .ok ((), st)
    else if execRemaining ∧ ¬l.isEmpty then
      match executeStatement fuel l st with
      | .error er => .error er
      | .ok (_, st1) => switchAux fuel switchValue rest execRemaining st1
    else switchAux fuel switchValue rest execRemaining st

/-- `CInterpreter::handle_switch_statement`. -/
def handleSwitch (fuel : Nat) (body : Str) (st : St) : Res Unit :=
  match findSub body (("switch").toList) with
  | none => .error (errLit ("Invalid switch statement") (by decide))
  | some switchStart =>
    match findCharIdx (body.drop switchStart) '(' with
    | none => .error (errLit ("Invalid switch syntax") (by decide))
    | some p =>
      let parenStart := p + switchStart
      match findMatchingParen body parenStart with
      | none => .error (errLit ("Invalid switch syntax") (by decide))
      | some parenEnd =>
        let switchExpr := slice body (parenStart + 1) parenEnd
        match evaluateNumeric fuel switchExpr st with
        | .error er => .error er
        | .ok (switchValue, st1) =>
          match findCharIdx (body.drop parenEnd) lbChar with
          | none => .error (errLit ("Invalid switch body") (by decide))
          | some q =>
            let bodyStart := q + parenEnd
            match findMatchingBrace body bodyStart with
            | none => .error (errLit ("Unmatched braces") (by decide))
            | some bodyEnd =>
              let switchBody := slice body (bodyStart + 1) bodyEnd
              switchAux fuel switchValue (linesOf switchBody) false st1

/-! ## Control-flow engine (`execute_statements`, loops, if/else)

The construct handlers are parameterized by closures for condition
evaluation (`evalCond`), block execution (`execStmts`) and single-statement
execution (`execStmt`); `executeStatements` ties the knot one fuel step
down, so that every definition is structurally recursive and reduces in
the kernel. -/

/-- The iteration loop of `handle_for_loop`: `iterations` is the source's
counter, checked against the 100,000 cap after the condition and before
the body. -/
def forLoopAuxF (evalCond : Str → St → Res Bool)
    (execStmts execStmt : Str → St → Res Unit)
    (condition increment loopBody : Str) :
    Nat → Nat → St → Res Unit
  | 0, _, _ => .error .fuelE
  | f + 1, iterations, st =>
    match evalCond condition st with
    | .error er => .error er
    | .ok (b, st1) =>
      if ¬b then .ok ((), st1)
      else if 100000 ≤ iterations then .error errLoopCap
      else
        let st2 := { st1 with loopBreak := false, loopContinue := false }
        match execStmts loopBody st2 with
        | .error er => .error er
        | .ok (_, st3) =>
          if st3.loopBreak then .ok ((), { st3 with loopBreak := false })
          else if ¬st3.loopContinue then
            match execStmt increment st3 with
            | .error er => .error er
            | .ok (_, st4) =>
              forLoopAuxF evalCond execStmts execStmt condition increment
                loopBody f (iterations + 1) st4
          else
            match execStmt increment st3 with
            | .error er => .error er
            | .ok (_, st4) =>
              forLoopAuxF evalCond execStmts execStmt condition increment
                loopBody f (iterations + 1) { st4 with loopContinue := false }

/-- `CInterpreter::handle_for_loop`: locate header and body, run the
initializer, then iterate `forLoopAuxF`. -/
def handleForLoopF (evalCond : Str → St → Res Bool)
    (execStmts execStmt : Str → St → Res Unit)
    (fuel : Nat) (body : Str) (st : St) : Res Unit :=
  match findSub body (("for").toList) with
  | none => .error (errLit ("Invalid for loop") (by decide))
  | some forStart =>
    match findCharIdx (body.drop forStart) '(' with
    | none => .error (errLit ("Invalid for loop syntax") (by decide))
    | some p =>
      let parenStart := p + forStart
      match findMatchingParen body parenStart with
      | none => .error (errLit ("Invalid for loop syntax") (by decide))
      | some parenEnd =>
        let forHeader := slice body (parenStart + 1) parenEnd
        let parts := splitAllChar forHeader ';'
        if parts.length ≠ 3 then
          .error (errLit ("Invalid for loop syntax") (by decide))
        else
          match execStmt (trim (parts.getD 0 [])) st with
          | .error er => .error er
          | .ok (_, st1) =>
            match findCharIdx (body.drop parenEnd) lbChar with
            | none => .error (errLit ("Invalid for loop body") (by decide))
            | some q =>
              let bodyStart := q + parenEnd
              match findMatchingBrace body bodyStart with
              | none => .error (errLit ("Unmatched braces") (by decide))
              | some bodyEnd =>
                let loopBody := slice body (bodyStart + 1) bodyEnd
                let condition := trim (parts.getD 1 [])
                let increment := trim (parts.getD 2 [])
                forLoopAuxF evalCond execStmts execStmt condition increment
                  loopBody fuel 0 st1

/-- The iteration loop of `handle_while_loop`. -/
def whileLoopAuxF (evalCond : Str → St → Res Bool)
    (execStmts : Str → St → Res Unit) (condition loopBody : Str) :
    Nat → Nat → St → Res Unit
  | 0, _, _ => .error .fuelE
  | f + 1, iterations, st =>
    match evalCond condition st with
    | .error er => .error er
    | .ok (b, st1) =>
      if ¬b then .ok ((), st1)
      else if 100000 ≤ iterations then .error errLoopCap
      else
        let st2 := { st1 with loopBreak := false, loopContinue := false }
        match execStmts loopBody st2 with
        | .error er => .error er
        | .ok (_, st3) =>
          if st3.loopBreak then .ok ((), { st3 with loopBreak := false })
          else
            whileLoopAuxF evalCond execStmts condition loopBody f
              (iterations + 1) { st3 with loopContinue := false }

/-- `CInterpreter::handle_while_loop`. -/
def handleWhileLoopF (evalCond : Str → St → Res Bool)
    (execStmts : Str → St → Res Unit)
    (fuel : Nat) (body : Str) (st : St) : Res Unit :=
  match findSub body (("while").toList) with
  | none => .error (errLit ("Invalid while loop") (by decide))
  | some whileStart =>
    match findCharIdx (body.drop whileStart) '(' with
    | none => .error (errLit ("Invalid while loop syntax") (by decide))
    | some p =>
      let parenStart := p + whileStart
      match findMatchingParen body parenStart with
      | none => .error (errLit ("Invalid while loop syntax") (by decide))
      | some parenEnd =>
        let condition := slice body (parenStart + 1) parenEnd
        match findCharIdx (body.drop parenEnd) lbChar with
        | none => .error (errLit ("Invalid while loop body") (by decide))
        | some q =>
          let bodyStart := q + parenEnd
          match findMatchingBrace body bodyStart with
          | none => .error (errLit ("Unmatched braces") (by decide))
          | some bodyEnd =>
            let loopBody := slice body (bodyStart + 1) bodyEnd
            whileLoopAuxF evalCond execStmts condition loopBody fuel 0 st

/-- The iteration loop of `handle_do_while_loop`: cap check first, body,
then the condition. -/
def doWhileLoopAuxF (evalCond : Str → St → Res Bool)
    (execStmts : Str → St → Res Unit) (condition loopBody : Str) :
    Nat → Nat → St → Res Unit
  | 0, _, _ => .error .fuelE
  | f + 1, iterations, st =>
    if 100000 ≤ iterations then .error errLoopCap
    else
      let st1 := { st with loopBreak := false, loopContinue := false }
      match execStmts loopBody st1 with
      | .error er => .error er
      | .ok (_, st2) =>
        if st2.loopBreak then .ok ((), { st2 with loopBreak := false })
        else
          let st3 := { st2 with loopContinue := false }
          match evalCond condition st3 with
          | .error er => .error er
          | .ok (b, st4) =>
            if ¬b then .ok ((), st4)
            else
              doWhileLoopAuxF evalCond execStmts condition loopBody f
                (iterations + 1) st4

/-- `CInterpreter::handle_do_while_loop`. -/
def handleDoWhileLoopF (evalCond : Str → St → Res Bool)
    (execStmts : Str → St → Res Unit)
    (fuel : Nat) (body : Str) (st : St) : Res Unit :=
  match findSub body (("do").toList) with
  | none => .error (errLit ("Invalid do-while loop") (by decide))
  | some doStart =>
    match findCharIdx (body.drop doStart) lbChar with
    | none => .error (errLit ("Invalid do-while body") (by decide))
    | some p =>
      let bodyStart := p + doStart
      match findMatchingBrace body bodyStart with
      | none => .error (errLit ("Unmatched braces") (by decide))
      | some bodyEnd =>
        let loopBody := slice body (bodyStart + 1) bodyEnd
        match findSub (body.drop bodyEnd) (("while").toList) with
        | none => .error (errLit ("Invalid do-while loop") (by decide))
        | some w =>
          let whileStart := w + bodyEnd
          match findCharIdx (body.drop whileStart) '(' with
          | none => .error (errLit ("Invalid do-while syntax") (by decide))
          | some q =>
            let parenStart := q + whileStart
            match findMatchingParen body parenStart with
            | none => .error (errLit ("Invalid do-while syntax") (by decide))
            | some parenEnd =>
              let condition := slice body (parenStart + 1) parenEnd
              doWhileLoopAuxF evalCond execStmts condition loopBody fuel 0 st

/-- `CInterpreter::handle_if_else_statement`: parse condition, if-body and
trailing text, evaluate the condition, run the selected branch; statements
after the construct are not executed.  The fuel bounds the `else if`
recursion. -/
def handleIfElseF (evalCond : Str → St → Res Bool)
    (execStmts : Str → St → Res Unit) :
    Nat → Str → St → Res Unit
  | 0, _, _ => .error .fuelE
  | f + 1, body, st =>
    match findSub body (("if").toList) with
    | none => .error (errLit ("Invalid if statement") (by decide))
    | some ifStart =>
      match findCharIdx (body.drop ifStart) '(' with
      | none => .error (errLit ("Invalid if syntax") (by decide))
      | some p =>
        let parenStart := p + ifStart
        match findMatchingParen body parenStart with
        | none => .error (errLit ("Invalid if syntax") (by decide))
        | some parenEnd =>
          let condition := slice body (parenStart + 1) parenEnd
          match findCharIdx (body.drop parenEnd) lbChar with
          | none => .error (errLit ("Invalid if body") (by decide))
          | some q =>
            let bodyStart := q + parenEnd
            match findMatchingBrace body bodyStart with
            | none => .error (errLit ("Unmatched braces") (by decide))
            | some bodyEnd =>
              let ifBody := slice body (bodyStart + 1) bodyEnd
              let remaining := trim (body.drop (bodyEnd + 1))
              match evalCond condition st with
              | .error er => .error er
              | .ok (b, st1) =>
                if b then execStmts ifBody st1
                else if startsWithL remaining (("else").toList) then
                  let elsePart := trim (remaining.drop 4)
                  if startsWithL elsePart (("if").toList) then
                    handleIfElseF evalCond execStmts f elsePart st1
                  else
                    match findCharIdx elsePart lbChar with
                    | none => .error (errLit ("Invalid else body") (by decide))
                    | some ebs =>
                      match findMatchingBrace elsePart ebs with
                      | none => .error (errLit ("Unmatched braces") (by decide))
                      | some ebe =>
                        execStmts (slice elsePart (ebs + 1) ebe) st1
                else .ok ((), st1)

/-- `CInterpreter::execute_statements`: dispatch whole bodies containing a
control keyword to the corresponding construct handler, otherwise split
into statements and run them. -/
def executeStatements : Nat → Str → St → Res Unit
  | 0, _, _ => .error .fuelE
  | f + 1, body, st =>
    let b := trim body
    if b.isEmpty then .ok ((), st)
    else if containsSub b (("for").toList) then
      handleForLoopF (evaluateCondition f) (executeStatements f)
        (executeStatement f) f b st
    else if containsSub b (("while").toList) then
      handleWhileLoopF (evaluateCondition f) (executeStatements f) f b st
    else if containsSub b (("do").toList) ∧ containsSub b (("while").toList)
      then
      handleDoWhileLoopF (evaluateCondition f) (executeStatements f) f b st
    else if containsSub b (("if").toList) then
      handleIfElseF (evaluateCondition f) (executeStatements f) f b st
    else if containsSub b (("switch").toList) then handleSwitch f b st
    else stmtsLoop f (splitStatements b) st

/-! ## Driver -/

/-- `CInterpreter::execute`: find `main`, extract its body, run it, return
the accumulated output (`parse_globals_and_functions` is a no-op `Ok`). -/
def executeRun (fuel : Nat) (code : Str) (st : St) : Except Err (Str × St) :=
  let mainStart? :=
    match findSub code (("int main").toList) with
    | some i => some i
    | none => findSub code (("void main").toList)
  match mainStart? with
  | none => .error (errLit ("Error: No main function found") (by decide))
  | some mainStart =>
    let code' := code.drop mainStart
    match findCharIdx code' lbChar with
    | none => .error (errLit ("Error: Invalid main function syntax") (by decide))
    | some bodyStart =>
      match findMatchingBrace code' bodyStart with
      | none =>
        .error (errLit ("Error: Unmatched braces in main function") (by decide))
      | some bodyEnd =>
        let body := slice code' (bodyStart + 1) bodyEnd
        match executeStatements fuel body st with
        | .error er => .error er
        | .ok (_, st1) => .ok (st1.output, st1)

/-- `compile_c_code`: a fresh interpreter running the program. -/
def interpretFuel (fuel : Nat) (code : Str) : Except Err (Str × St) :=
  executeRun fuel code initSt

/-- The `CompilationResult` envelope of `compile_and_run_c` (JSON transport
is out of scope). -/
structure CompilationResult where
  success : Bool
  output : Str
  error : Option Str

/-- `compile_and_run_c`: wrap the run in the result envelope.  A Rust
panic aborts the process, so no envelope is produced (`none`); fuel
exhaustion is an artifact of the embedding and also yields `none`. -/
def compileAndRunFuel (fuel : Nat) (code : Str) : Option CompilationResult :=
  match interpretFuel fuel code with
  | .ok (out, _) => some { success := true, output := out, error := none }
  | .error (.interp m _) =>
    some { success := false, output := [], error := some m }
  | .error (.panicE _) => none
  | .error .fuelE => none

/-! ## Instrumented loop runners (body-execution counters for the
iteration-cap claim); each mirrors its aux runner and additionally counts
how often the loop body was entered. -/

/-- `forLoopAuxF` with a body-execution counter. -/
def forLoopAuxCntF (evalCond : Str → St → Res Bool)
    (execStmts execStmt : Str → St → Res Unit)
    (condition increment loopBody : Str) :
    Nat → Nat → St → Res Unit × Nat
  | 0, _, _ => (.error .fuelE, 0)
  | f + 1, iterations, st =>
    match evalCond condition st with
    | .error er => (.error er, 0)
    | .ok (b, st1) =>
      if ¬b then (.ok ((), st1), 0)
      else if 100000 ≤ iterations then (.error errLoopCap, 0)
      else
        let st2 := { st1 with loopBreak := false, loopContinue := false }
        match execStmts loopBody st2 with
        | .error er => (.error er, 1)
        | .ok (_, st3) =>
          if st3.loopBreak then (.ok ((), { st3 with loopBreak := false }), 1)
          else if ¬st3.loopContinue then
            match execStmt increment st3 with
            | .error er => (.error er, 1)
            | .ok (_, st4) =>
              let (r, n) :=
                forLoopAuxCntF evalCond execStmts execStmt condition
                  increment loopBody f (iterations + 1) st4
              (r, n + 1)
          else
            match execStmt increment st3 with
            | .error er => (.error er, 1)
            | .ok (_, st4) =>
              let (r, n) :=
                forLoopAuxCntF evalCond execStmts execStmt condition
                  increment loopBody f (iterations + 1)
                  { st4 with loopContinue := false }
              (r, n + 1)

/-- `whileLoopAuxF` with a body-execution counter. -/
def whileLoopAuxCntF (evalCond : Str → St → Res Bool)
    (execStmts : Str → St → Res Unit) (condition loopBody : Str) :
    Nat → Nat → St → Res Unit × Nat
  | 0, _, _ => (.error .fuelE, 0)
  | f + 1, iterations, st =>
    match evalCond condition st with
    | .error er => (.error er, 0)
    | .ok (b, st1) =>
      if ¬b then (.ok ((), st1), 0)
      else if 100000 ≤ iterations then (.error errLoopCap, 0)
      else
        let st2 := { st1 with loopBreak := false, loopContinue := false }
        match execStmts loopBody st2 with
        | .error er => (.error er, 1)
        | .ok (_, st3) =>
          if st3.loopBreak then (.ok ((), { st3 with loopBreak := false }), 1)
          else
            let (r, n) :=
              whileLoopAuxCntF evalCond execStmts condition loopBody f
                (iterations + 1) { st3 with loopContinue := false }
            (r, n + 1)

/-- `doWhileLoopAuxF` with a body-execution counter. -/
def doWhileLoopAuxCntF (evalCond : Str → St → Res Bool)
    (execStmts : Str → St → Res Unit) (condition loopBody : Str) :
    Nat → Nat → St → Res Unit × Nat
  | 0, _, _ => (.error .fuelE, 0)
  | f + 1, iterations, st =>
    if 100000 ≤ iterations then (.error errLoopCap, 0)
    else
      let st1 := { st with loopBreak := false, loopContinue := false }
      match execStmts loopBody st1 with
      | .error er => (.error er, 1)
      | .ok (_, st2) =>
        if st2.loopBreak then (.ok ((), { st2 with loopBreak := false }), 1)
        else
          let st3 := { st2 with loopContinue := false }
          match evalCond condition st3 with
          | .error er => (.error er, 1)
          | .ok (b, st4) =>
            if ¬b then (.ok ((), st4), 1)
            else
              let (r, n) :=
                doWhileLoopAuxCntF evalCond execStmts condition loopBody f
                  (iterations + 1) st4
              (r, n + 1)

/-! ## Observers and concrete programs used by the claims -/

/-- The message of an interpreter (`String`) error, if any. -/
def errMsgOf {α : Type} : Except Err (α × St) → Option Str
  | .error (.interp m _) => some m
  | _ => none

/-- The message of a Rust panic, if any. -/
def panicMsgOf {α : Type} : Except Err (α × St) → Option Str
  | .error (.panicE m) => some m
  | _ => none

/-- The produced output on success, if any. -/
def okOutOf : Except Err (Str × St) → Option Str
  | .ok (o, _) => some o
  | _ => none

/-- The final state on success, if any. -/
def stOf {α : Type} : Except Err (α × St) → Option St
  | .ok (_, st) => some st
  | _ => none

/-- The environment value of `name` when it is an `Int`. -/
def lookupIntVar (st : St) (name : Str) : Option Int :=
  match lookupA st.vars name with
  | some (.int i) => some i
  | _ => none

/-- The heap value mirrored at `addressMap[name]` when it is an `Int`. -/
def heapIntAtName (st : St) (name : Str) : Option Int :=
  match lookupA st.memory.addressMap name with
  | some a =>
    match lookupA st.memory.heap a with
    | some (.int i) => some i
    | _ => none
  | none => none

/-- The scenario program of claim C1, exactly as the spec writes it
(`if(i==5) break;` without braces). -/
def progC1 : Str :=
  ("int main()\x7b for(int i=0;i<10;i++)\x7b if(i==5) break; printf(\x22%d \x22, i); \x7d return 0; \x7d").toList

/-- The brace-carrying variant of the C1 program, character for character
the program of the repository's own test `test_for_loop_with_break`
(whitespace normalized), which asserts the output contains `0 1 2 3 4`. -/
def progC1braced : Str :=
  ("int main()\x7b for(int i=0;i<10;i++)\x7b if(i==5)\x7b break; \x7d printf(\x22%d \x22, i); \x7d return 0; \x7d").toList

/-- A program whose `%=` right-hand side is zero (claim C6). -/
def progC6 : Str :=
  ("int main()\x7b int x=5; x %= 0; return 0; \x7d").toList

/-- A success program for the envelope claim (C5). -/
def progHello : Str :=
  ("int main()\x7b printf(\x22Hello, World!\x5cn\x22); return 0; \x7d").toList

/-- The expected envelope of `progHello` (claim C5 witness). -/
def c5res : CompilationResult :=
  { success := true, output := ("Hello, World!\n").toList, error := none }

/-- Statement sequence for the C2 counterexample: take the address of `x`,
then increment it. -/
def c2Body : Str := ("int x=1; int *p=&x; x++;").toList

/-- Declarations for the C10 counterexample: a pointer with no recorded
address and an array of length 3. -/
def c10Decls : Str := ("int *p; int a[3];").toList

/-- The out-of-range array assignment of the C10 counterexample; its
right-hand side `&p` allocates an address for `p` while being evaluated. -/
def c10Stmt : Str := ("a[5] = &p").toList

/-- The state used by the C8 (printf scan order) theorem: `u` and `v` hold
the two integer arguments. -/
def c8St (a b : Int) : St :=
  { initSt with vars := [(("u").toList, .int a), (("v").toList, .int b)] }

/-- The state used by the C2 (amended) witness: scalar `x = 1` mirrored at
address 4096. -/
def c2wSt : St :=
  { initSt with
    vars := [(("x").toList, .int 1)],
    memory := { heap := [(4096, .int 1)], nextAddress := 4104,
                addressMap := [(("x").toList, 4096)] } }

/-- The state after the C2 witness assignment `x = 2`. -/
def c2wSt' : St :=
  { initSt with
    vars := [(("x").toList, .int 2)],
    memory := { heap := [(4096, .int 2)], nextAddress := 4104,
                addressMap := [(("x").toList, 4096)] } }

/-- The state used by the C10 (amended) witness: an array `a` of length 2. -/
def c10wSt : St :=
  { initSt with vars := [(("a").toList, .array [.int 0, .int 0])] }

/-! ## Association-list lemmas -/

theorem lookupA_insertA {κ α : Type} [DecidableEq κ]
    (m : List (κ × α)) (k : κ) (v : α) (key : κ) :
    lookupA (insertA m k v) key = if key = k then some v else lookupA m key := by
  induction m with
  | nil => simp [insertA, lookupA]
  | cons p t ih =>
    obtain ⟨k', w⟩ := p
    by_cases hk : k = k'
    · subst hk
      by_cases hq : key = k <;> simp [insertA, lookupA, hq]
    · by_cases hq : key = k'
      · subst hq
        simp [insertA, lookupA, hk, Ne.symm hk]
      · simp [insertA, lookupA, hk, hq, ih]

theorem containsA_insertA {κ α : Type} [DecidableEq κ]
    (m : List (κ × α)) (k : κ) (v : α) (key : κ) :
    containsA (insertA m k v) key =
      (if key = k then true else containsA m key) := by
  by_cases h : key = k <;> simp [containsA, lookupA_insertA, h]

/-! ## Claim C7 — `Memory::write` succeeds exactly on recorded addresses -/

/-- C7: `memory.write(addr, value)` succeeds if and only if `addr` is
already a heap key; when the key is absent it returns the
`Segmentation fault: invalid memory address 0x<hex>` error (and, returning
no memory, changes nothing); on success the result differs from the input
only by the overwritten heap cell — the address map and the allocation
counter are untouched and the set of heap keys is unchanged, so a write
never adds a heap entry. -/
theorem claim_C7 :
    (∀ (m : Memory) (addr : Int) (v : Value),
      (Memory.write m addr v).isOk = containsA m.heap addr) ∧
    (∀ (m : Memory) (addr : Int) (v : Value),
      containsA m.heap addr = false →
        Memory.write m addr v = .error (errSegfault addr)) ∧
    (∀ (m : Memory) (addr : Int) (v : Value) (m' : Memory),
      Memory.write m addr v = .ok m' →
        m' = { m with heap := insertA m.heap addr v } ∧
        m'.addressMap = m.addressMap ∧
        m'.nextAddress = m.nextAddress ∧
        ∀ a, containsA m'.heap a = containsA m.heap a) := by
  refine ⟨?_, ?_, ?_⟩
  · intro m addr v
    by_cases h : containsA m.heap addr = true <;>
      simp [Memory.write, h, Except.isOk, Except.toBool]
  · intro m addr v h
    simp [Memory.write, h]
  · intro m addr v m' h
    rw [Memory.write] at h
    by_cases hc : containsA m.heap addr = true
    · rw [if_pos hc] at h
      cases h
      refine ⟨rfl, rfl, rfl, ?_⟩
      intro a
      rw [containsA_insertA]
      by_cases ha : a = addr <;> simp [ha, hc]
    · rw [if_neg hc] at h
      cases h

/-- Witness for C7: a write to an unrecorded address of the fresh memory
fails with the segmentation-fault error. -/
theorem claim_C7_witness :
    containsA Memory.init.heap 7 = false ∧
    Memory.write Memory.init 7 (.int 0) = .error (errSegfault 7) :=
  ⟨by decide, claim_C7.2.1 Memory.init 7 (.int 0) (by decide)⟩

/-! ## Claim C10 — out-of-range array-element assignment -/

/-- C10 counterexample: after `int *p; int a[3];` the heap has one entry
(the array cell); executing the out-of-range assignment `a[5] = &p`
succeeds but leaves a heap with two entries — evaluating the right-hand
side `&p` allocated an address for `p` — so the statement is not a
complete no-op on the heap, contrary to the claim as stated. -/
theorem claim_C10_counterexample :
    ((stOf (executeStatements 50 c10Decls initSt)).map
        (fun st => st.memory.heap.length) = some 1) ∧
    (((stOf (executeStatements 50 c10Decls initSt)).bind
        (fun st => stOf (executeStatement 50 c10Stmt st))).map
        (fun st => st.memory.heap.length) = some 2) := by
  constructor <;> decide

/-- C10 (amended): once the index and the right-hand side of
`a[i] = expr` have been evaluated, an index at or beyond the array length
makes the remaining write a complete no-op: `arrayAssignCore` (the code
after the two evaluations) returns success and the state — array, heap
and output included — is returned unchanged, and no out-of-range error
exists on this path.  Side effects of evaluating the index or value
expressions (such as `&p` allocating an address) still occur, as the
counterexample shows. -/
theorem claim_C10 (varName : Str) (idx : Nat) (value : Value) (st : St)
    (arr : List Value) (hl : lookupA st.vars varName = some (.array arr))
    (hi : arr.length ≤ idx) :
    arrayAssignCore varName idx value st = .ok ((), st) := by
  simp only [arrayAssignCore, hl]
  rw [if_neg (by omega)]

/-- Witness for C10 (amended): assigning index 5 of the length-2 array
`a` returns success and the unchanged state. -/
theorem claim_C10_witness :
    lookupA c10wSt.vars (("a").toList) = some (.array [.int 0, .int 0]) ∧
    arrayAssignCore (("a").toList) 5 (.int 9) c10wSt = .ok ((), c10wSt) :=
  ⟨rfl, claim_C10 (("a").toList) 5 (.int 9) c10wSt [.int 0, .int 0] rfl
    (by decide)⟩

/-! ## Claim C2 — environment/heap agreement for scalars -/

/-- C2 counterexample: after `int x=1; int *p=&x; x++;` — so `x` has been
the subject of `&x` — the environment holds `x = 2` while the heap cell
at `addressMap[x]` still holds `1`: `handle_increment_decrement` updates
only the environment, so the claimed invariant fails right after an
increment statement. -/
theorem claim_C2_counterexample :
    (stOf (executeStatements 50 c2Body initSt)).map
      (fun st => (lookupIntVar st (("x").toList),
                  heapIntAtName st (("x").toList)))
      = some (some 2, some 1) := by
  decide

/-- C2 (amended): the invariant does hold after the type-directed branch
of `handle_assignment` for an existing non-pointer scalar (`assignExisting`,
source lines 1389–1425): whenever that branch succeeds, the environment
value of the assigned variable equals the heap value at its recorded
address.  It fails after increment/decrement and compound assignment,
which update only the environment (see the counterexample). -/
theorem memWrite_ok (m : Memory) (addr : Int) (v : Value) (m' : Memory)
    (h : Memory.write m addr v = .ok m') :
    m'.addressMap = m.addressMap ∧ lookupA m'.heap addr = some v := by
  rw [Memory.write] at h
  by_cases hc : containsA m.heap addr = true
  · rw [if_pos hc] at h
    cases h
    exact ⟨rfl, by rw [lookupA_insertA]; simp⟩
  · rw [if_neg hc] at h
    cases h

theorem claim_C2 (fuel : Nat) (varName : Str) (existingValue : Value)
    (expr : Str) (st st' : St)
    (h : assignExisting fuel varName existingValue expr st = .ok ((), st'))
    (addr : Int) (ha : lookupA st'.memory.addressMap varName = some addr) :
    lookupA st'.vars varName = lookupA st'.memory.heap addr := by
  rw [assignExisting] at h
  cases hv : assignCoerce fuel existingValue expr st with
  | error er => rw [hv] at h; cases h
  | ok p =>
    obtain ⟨value, st1⟩ := p
    rw [hv] at h
    simp only at h
    cases hm : lookupA st1.memory.addressMap varName with
    | none =>
      rw [hm] at h
      simp only at h
      cases h
      rw [hm] at ha
      cases ha
    | some addr0 =>
      rw [hm] at h
      simp only at h
      cases hw : Memory.write st1.memory addr0 value with
      | error er => rw [hw] at h; cases h
      | ok m' =>
        rw [hw] at h
        cases h
        obtain ⟨hmap, hheap⟩ := memWrite_ok st1.memory addr0 value m' hw
        simp only [hmap] at ha
        rw [hm] at ha
        cases ha
        rw [lookupA_insertA]
        simp [hheap]

/-- Witness for C2 (amended): assigning `x = 2` over `x = 1` mirrored at
address 4096 succeeds and re-establishes the agreement. -/
theorem claim_C2_witness :
    assignExisting 10 (("x").toList) (.int 1) (("2").toList) c2wSt
      = .ok ((), c2wSt') ∧
    lookupA c2wSt'.memory.addressMap (("x").toList) = some 4096 ∧
    lookupA c2wSt'.vars (("x").toList) = lookupA c2wSt'.memory.heap 4096 :=
  ⟨rfl, rfl,
   claim_C2 10 (("x").toList) (.int 1) (("2").toList) c2wSt c2wSt' rfl
     4096 rfl⟩

/-! ## Claim C1 — the for/break/printf scenario program -/

/-- C1: interpreting the exact program of the claim does not succeed with
output `0 1 2 3 4 `; it fails with the diagnostic `Invalid if body`,
because `handle_if_else_statement` requires a `{` after `if(...)` and the
program's `if(i==5) break;` has none.  Moreover, even the braced variant
— character for character the program of the repository's own test
`test_for_loop_with_break`, which asserts the output contains
`0 1 2 3 4` — succeeds with empty output, because statements following
an if-construct inside a block are discarded by the dispatcher, so the
`printf` never runs: the code contradicts both the claim and its own
test. -/
theorem claim_C1 :
    errMsgOf (interpretFuel 200 progC1) = some (("Invalid if body").toList) ∧
    okOutOf (interpretFuel 200 progC1braced) = some [] := by
  constructor <;> decide

/-! ## Claim C6 — compound assignment and the `%=` zero divisor -/

/-- C6: on `x %= 0` the interpreter does not fail with an error as the
claim states: `handle_compound_assignment` checks the divisor for `/=`
but not for `%=`, and `current_val % expr_val` with a zero divisor is a
Rust panic — the process aborts and no result envelope is produced at
all. -/
theorem claim_C6 :
    panicMsgOf (interpretFuel 100 progC6)
      = some (("attempt to calculate the remainder with a divisor of zero").toList) ∧
    (compileAndRunFuel 100 progC6).isNone = true := by
  constructor <;> decide

/-! ## Claim C5 — the result envelope -/

/-- C5: whenever the entry point produces a result envelope, it is either
a success envelope — `success = true`, `error = none` and `output` the
run's accumulated output — or a failure envelope with `success = false`,
empty `output` (no partial output) and a non-empty diagnostic in `error`.
(A Rust panic, such as the one of C6, aborts before any envelope is
produced.) -/
theorem claim_C5 (fuel : Nat) (code : Str) (r : CompilationResult)
    (h : compileAndRunFuel fuel code = some r) :
    (r.success = true ∧ r.error = none ∧
      (∃ st, interpretFuel fuel code = .ok (r.output, st))) ∨
    (r.success = false ∧ r.output = [] ∧
      ∃ e, r.error = some e ∧ e ≠ []) := by
  rw [compileAndRunFuel] at h
  cases hi : interpretFuel fuel code with
  | ok p =>
    obtain ⟨out, st⟩ := p
    rw [hi] at h
    simp only at h
    cases h
    exact Or.inl ⟨rfl, rfl, ⟨st, by simp [hi]⟩⟩
  | error er =>
    rw [hi] at h
    cases er with
    | interp m ne =>
      simp only at h
      cases h
      exact Or.inr ⟨rfl, rfl, ⟨m, rfl, ne⟩⟩
    | panicE m => simp only at h; cases h
    | fuelE => simp only at h; cases h

/-- Witness for C5: the hello-world program yields the success envelope. -/
theorem claim_C5_witness :
    (c5res.success = true ∧ c5res.error = none ∧
      (∃ st, interpretFuel 50 progHello = .ok (c5res.output, st))) ∨
    (c5res.success = false ∧ c5res.output = [] ∧
      ∃ e, c5res.error = some e ∧ e ≠ []) :=
  claim_C5 50 progHello c5res rfl

/-! ## Claim C4 — the 100,000-iteration loop cap -/

theorem forLoopAuxCntF_fst (ec : Str → St → Res Bool)
    (es et : Str → St → Res Unit) (cond inc body : Str) :
    ∀ (f it : Nat) (st : St),
      (forLoopAuxCntF ec es et cond inc body f it st).1
        = forLoopAuxF ec es et cond inc body f it st := by
  intro f
  induction f with
  | zero => intro it st; rfl
  | succ f ih =>
    intro it st
    rw [forLoopAuxCntF, forLoopAuxF]
    rcases hec : ec cond st with er | ⟨b, st1⟩
    · rfl
    · simp only
      split_ifs
      any_goals rfl
      all_goals
        rcases hes :
          es body { st1 with loopBreak := false, loopContinue := false }
          with er | ⟨u, st3⟩
      any_goals rfl
      all_goals try simp only
      all_goals try split_ifs
      any_goals rfl
      all_goals rcases het : et inc st3 with er | ⟨u2, st4⟩
      any_goals rfl
      all_goals simp only [ih]

theorem forLoopAuxCntF_le (ec : Str → St → Res Bool)
    (es et : Str → St → Res Unit) (cond inc body : Str) :
    ∀ (f it : Nat) (st : St),
      (forLoopAuxCntF ec es et cond inc body f it st).2 ≤ 100000 - it := by
  intro f
  induction f with
  | zero => intro it st; simp [forLoopAuxCntF]
  | succ f ih =>
    intro it st
    rw [forLoopAuxCntF]
    rcases hec : ec cond st with er | ⟨b, st1⟩
    · simp
    · simp only
      split_ifs
      any_goals simp
      all_goals
        rcases hes :
          es body { st1 with loopBreak := false, loopContinue := false }
          with er | ⟨u, st3⟩
      any_goals (simp only; omega)
      all_goals try simp only
      all_goals try split_ifs
      any_goals omega
      all_goals rcases het : et inc st3 with er | ⟨u2, st4⟩
      any_goals (simp only; omega)
      all_goals try simp only
      all_goals
        first
        | (have hle := ih (it + 1) st4; omega)
        | (have hle := ih (it + 1) { st4 with loopContinue := false }; omega)

theorem whileLoopAuxCntF_fst (ec : Str → St → Res Bool)
    (es : Str → St → Res Unit) (cond body : Str) :
    ∀ (f it : Nat) (st : St),
      (whileLoopAuxCntF ec es cond body f it st).1
        = whileLoopAuxF ec es cond body f it st := by
  intro f
  induction f with
  | zero => intro it st; rfl
  | succ f ih =>
    intro it st
    rw [whileLoopAuxCntF, whileLoopAuxF]
    rcases hec : ec cond st with er | ⟨b, st1⟩
    · rfl
    · simp only
      split_ifs
      any_goals rfl
      all_goals
        rcases hes :
          es body { st1 with loopBreak := false, loopContinue := false }
          with er | ⟨u, st3⟩
      any_goals rfl
      all_goals try simp only
      all_goals try split_ifs
      any_goals rfl
      all_goals simp only [ih]

theorem whileLoopAuxCntF_le (ec : Str → St → Res Bool)
    (es : Str → St → Res Unit) (cond body : Str) :
    ∀ (f it : Nat) (st : St),
      (whileLoopAuxCntF ec es cond body f it st).2 ≤ 100000 - it := by
  intro f
  induction f with
  | zero => intro it st; simp [whileLoopAuxCntF]
  | succ f ih =>
    intro it st
    rw [whileLoopAuxCntF]
    rcases hec : ec cond st with er | ⟨b, st1⟩
    · simp
    · simp only
      split_ifs
      any_goals simp
      all_goals
        rcases hes :
          es body { st1 with loopBreak := false, loopContinue := false }
          with er | ⟨u, st3⟩
      any_goals (simp only; omega)
      all_goals try simp only
      all_goals try split_ifs
      any_goals omega
      all_goals try simp only
      all_goals
        (have hle := ih (it + 1) { st3 with loopContinue := false }; omega)

theorem doWhileLoopAuxCntF_fst (ec : Str → St → Res Bool)
    (es : Str → St → Res Unit) (cond body : Str) :
    ∀ (f it : Nat) (st : St),
      (doWhileLoopAuxCntF ec es cond body f it st).1
        = doWhileLoopAuxF ec es cond body f it st := by
  intro f
  induction f with
  | zero => intro it st; rfl
  | succ f ih =>
    intro it st
    rw [doWhileLoopAuxCntF, doWhileLoopAuxF]
    split_ifs
    any_goals rfl
    all_goals try simp only
    all_goals
      rcases hes :
        es body { st with loopBreak := false, loopContinue := false }
        with er | ⟨u, st2⟩
    any_goals rfl
    all_goals try simp only
    all_goals try split_ifs
    any_goals rfl
    all_goals
      rcases hec :
        ec cond { st2 with loopContinue := false } with er | ⟨b, st4⟩
    any_goals rfl
    all_goals try simp only
    all_goals try split_ifs
    any_goals rfl
    all_goals simp only [ih]

theorem doWhileLoopAuxCntF_le (ec : Str → St → Res Bool)
    (es : Str → St → Res Unit) (cond body : Str) :
    ∀ (f it : Nat) (st : St),
      (doWhileLoopAuxCntF ec es cond body f it st).2 ≤ 100000 - it := by
  intro f
  induction f with
  | zero => intro it st; simp [doWhileLoopAuxCntF]
  | succ f ih =>
    intro it st
    rw [doWhileLoopAuxCntF]
    split_ifs
    any_goals simp
    all_goals
      rcases hes :
        es body { st with loopBreak := false, loopContinue := false }
        with er | ⟨u, st2⟩
    any_goals (simp only; omega)
    all_goals try simp only
    all_goals try split_ifs
    any_goals omega
    all_goals
      rcases hec :
        ec cond { st2 with loopContinue := false } with er | ⟨b, st4⟩
    any_goals (simp only; omega)
    all_goals try simp only
    all_goals try split_ifs
    any_goals omega
    all_goals try simp only
    all_goals (have hle := ih (it + 1) st4; omega)

/-- C4: the loop cap.  For each loop construct (for, while, do-while),
the instrumented runner agrees with the real one and its body-execution
count never exceeds 100,000 — regardless of fuel, state, loop texts and
the condition/statement evaluators — so no loop body ever executes more
than 100,000 times; and a loop whose counter has reached 100,000 while
its condition still holds fails with exactly the error
`Loop exceeded maximum iterations (possible infinite loop)` (for the
do-while runner the cap check precedes even the body, unconditionally).
`handle_for_loop` etc. enter these runners with the counter at 0. -/
theorem claim_C4 :
    (∀ (ec : Str → St → Res Bool) (es et : Str → St → Res Unit)
       (cond inc body : Str) (fuel : Nat) (st : St),
      (forLoopAuxCntF ec es et cond inc body fuel 0 st).1
          = forLoopAuxF ec es et cond inc body fuel 0 st ∧
      (forLoopAuxCntF ec es et cond inc body fuel 0 st).2 ≤ 100000) ∧
    (∀ (ec : Str → St → Res Bool) (es : Str → St → Res Unit)
       (cond body : Str) (fuel : Nat) (st : St),
      (whileLoopAuxCntF ec es cond body fuel 0 st).1
          = whileLoopAuxF ec es cond body fuel 0 st ∧
      (whileLoopAuxCntF ec es cond body fuel 0 st).2 ≤ 100000) ∧
    (∀ (ec : Str → St → Res Bool) (es : Str → St → Res Unit)
       (cond body : Str) (fuel : Nat) (st : St),
      (doWhileLoopAuxCntF ec es cond body fuel 0 st).1
          = doWhileLoopAuxF ec es cond body fuel 0 st ∧
      (doWhileLoopAuxCntF ec es cond body fuel 0 st).2 ≤ 100000) ∧
    (∀ (ec : Str → St → Res Bool) (es et : Str → St → Res Unit)
       (cond inc body : Str) (fuel : Nat) (st st' : St),
      ec cond st = .ok (true, st') →
      forLoopAuxF ec es et cond inc body (fuel + 1) 100000 st
        = .error errLoopCap) ∧
    (∀ (ec : Str → St → Res Bool) (es : Str → St → Res Unit)
       (cond body : Str) (fuel : Nat) (st st' : St),
      ec cond st = .ok (true, st') →
      whileLoopAuxF ec es cond body (fuel + 1) 100000 st
        = .error errLoopCap) ∧
    (∀ (ec : Str → St → Res Bool) (es : Str → St → Res Unit)
       (cond body : Str) (fuel : Nat) (st : St),
      doWhileLoopAuxF ec es cond body (fuel + 1) 100000 st
        = .error errLoopCap) := by
  refine ⟨?_, ?_, ?_, ?_, ?_, ?_⟩
  · intro ec es et cond inc body fuel st
    exact ⟨forLoopAuxCntF_fst ec es et cond inc body fuel 0 st,
      by have hle := forLoopAuxCntF_le ec es et cond inc body fuel 0 st; omega⟩
  · intro ec es cond body fuel st
    exact ⟨whileLoopAuxCntF_fst ec es cond body fuel 0 st,
      by have hle := whileLoopAuxCntF_le ec es cond body fuel 0 st; omega⟩
  · intro ec es cond body fuel st
    exact ⟨doWhileLoopAuxCntF_fst ec es cond body fuel 0 st,
      by have hle := doWhileLoopAuxCntF_le ec es cond body fuel 0 st; omega⟩
  · intro ec es et cond inc body fuel st st' h
    rw [forLoopAuxF, h]
    simp
  · intro ec es cond body fuel st st' h
    rw [whileLoopAuxF, h]
    simp
  · intro ec es cond body fuel st
    rw [doWhileLoopAuxF]
    simp

/-- Witness for C4: a for-loop runner whose condition (`1`, evaluated by
the real condition evaluator) is still true at counter 100,000 fails with
the cap error. -/
theorem claim_C4_witness :
    evaluateCondition 1 (("1").toList) initSt = .ok (true, initSt) ∧
    forLoopAuxF (evaluateCondition 1) (executeStatements 1)
      (executeStatement 1) (("1").toList) [] [] 1 100000 initSt
      = .error errLoopCap :=
  ⟨rfl,
   claim_C4.2.2.2.1 (evaluateCondition 1) (executeStatements 1)
     (executeStatement 1) (("1").toList) [] [] 0 initSt initSt rfl⟩

/-! ## Claim C9 — unmatched statements are silently accepted -/

/-- C9: a statement (trimmed, trailing semicolons stripped) that matches
none of the dispatch rules of `execute_statement` — not `break` or
`continue`, containing none of the library-call substrings, not a
declaration, compound assignment, assignment, increment/decrement, and
not starting with `return` — is silently accepted: the executor returns
success and the state (environment, memory, control flags, output) is
returned unchanged. -/
theorem claim_C9 (fuel : Nat) (stmt : Str) (st : St)
    (h1 : trimEndMatches (trim stmt) ';' ≠ ("break").toList)
    (h2 : trimEndMatches (trim stmt) ';' ≠ ("continue").toList)
    (h3 : containsSub (trimEndMatches (trim stmt) ';') (("printf").toList) = false)
    (h4 : containsSub (trimEndMatches (trim stmt) ';') (("scanf").toList) = false)
    (h5 : containsSub (trimEndMatches (trim stmt) ';') (("puts").toList) = false)
    (h6 : containsSub (trimEndMatches (trim stmt) ';') (("gets").toList) = false)
    (h7 : containsSub (trimEndMatches (trim stmt) ';') (("strlen").toList) = false)
    (h8 : containsSub (trimEndMatches (trim stmt) ';') (("strcpy").toList) = false)
    (h9 : containsSub (trimEndMatches (trim stmt) ';') (("strcmp").toList) = false)
    (h10 : containsSub (trimEndMatches (trim stmt) ';') (("strcat").toList) = false)
    (h11 : mathGuard (trimEndMatches (trim stmt) ';') = false)
    (h12 : containsSub (trimEndMatches (trim stmt) ';') (("rand").toList) = false)
    (h13 : containsSub (trimEndMatches (trim stmt) ';') (("srand").toList) = false)
    (h14 : isDeclarationB (trimEndMatches (trim stmt) ';') = false)
    (h15 : compoundGuard (trimEndMatches (trim stmt) ';') = false)
    (h16 : assignGuard (trimEndMatches (trim stmt) ';') = false)
    (h17 : incDecGuard (trimEndMatches (trim stmt) ';') = false)
    (h18 : startsWithL (trimEndMatches (trim stmt) ';') (("return").toList) = false) :
    executeStatement (fuel + 1) stmt st = .ok ((), st) := by
  by_cases h0 : (trimEndMatches (trim stmt) ';').isEmpty = true
  · simp [executeStatement, h0]
  · simp only [executeStatement, h0, h1, h2, h3, h4, h5, h6, h7, h8, h9,
      h10, h11, h12, h13, h14, h15, h16, h17, h18, Bool.false_eq_true,
      if_false, ite_false]

/-- Witness for C9: the bare unknown identifier `foo` is accepted without
effect. -/
theorem claim_C9_witness :
    executeStatement 1 (("foo").toList) initSt = .ok ((), initSt) :=
  claim_C9 0 (("foo").toList) initSt (by decide) (by decide) (by decide)
    (by decide) (by decide) (by decide) (by decide) (by decide) (by decide)
    (by decide) (by decide) (by decide) (by decide) (by decide) (by decide)
    (by decide) (by decide) (by decide)

/-! ## Claim C3 — `&&` / `||` are not short-circuited -/

/-- C3 counterexample: in `0 && y` the left operand is false, yet the
evaluation error of the undefined right operand `y` surfaces; likewise
for `1 || y` with a true left operand — so the claimed short-circuiting
does not hold at this input. -/
theorem claim_C3_counterexample :
    errMsgOf (evaluateCondition 5 (("0 && y").toList) initSt)
      = some (("Error: Cannot evaluate expression: y").toList) ∧
    errMsgOf (evaluateCondition 5 (("1 || y").toList) initSt)
      = some (("Error: Cannot evaluate expression: y").toList) := by
  constructor <;> decide

theorem evaluateNumeric_y (f : Nat) (st : St)
    (h : lookupA st.vars (("y").toList) = none) :
    evaluateNumeric (f + 1) (("y").toList) st
      = .error (errCannotEval (("y").toList)) := by
  have bridge : evaluateNumeric (f + 1) (("y").toList) st =
      (match lookupA st.vars (("y").toList) with
       | some (.int i) => .ok (i, st)
       | some (.float q) => .ok (ratTruncToInt q, st)
       | some (.char c) => .ok ((c.toNat : Int), st)
       | some (.bool b) => .ok ((if b then 1 else 0 : Int), st)
       | some (.str _) =>
         .error (errLit ("Cannot convert string to number") (by decide))
       | some (.array _) =>
         .error (errLit ("Cannot convert array to number") (by decide))
       | some (.pointer a) => .ok (a, st)
       | none =>
         evaluateNumericRestF (evaluateNumeric f)
           (evaluateConditionF (evaluateNumeric f) f) (("y").toList) st) :=
    rfl
  rw [bridge, h]
  rfl

/-- C3 (amended): condition evaluation of `A && B` and `A || B` is not
short-circuited — both operands are always evaluated and the result is
the logical combination of the two, so an evaluation error in B surfaces
even when A alone decides the result: over any environment not defining
`y`, both `0 && y` and `1 || y` evaluate to the error of `y`. -/
theorem claim_C3 (f : Nat) (st : St)
    (h : lookupA st.vars (("y").toList) = none) :
    evaluateCondition (f + 2) (("0 && y").toList) st
      = .error (errCannotEval (("y").toList)) ∧
    evaluateCondition (f + 2) (("1 || y").toList) st
      = .error (errCannotEval (("y").toList)) := by
  have hy : evaluateConditionF (evaluateNumeric (f + 2)) (f + 1)
      (("y").toList) st = .error (errCannotEval (("y").toList)) := by
    have step : evaluateConditionF (evaluateNumeric (f + 2)) (f + 1)
        (("y").toList) st =
        (match evaluateNumeric (f + 2) (("y").toList) st with
         | .error er => .error er
         | .ok (v, st1) => .ok (decide (v ≠ 0), st1)) := rfl
    rw [step, evaluateNumeric_y (f + 1) st h]
  constructor
  · have left : evaluateCondition (f + 2) (("0 && y").toList) st =
        (match evaluateConditionF (evaluateNumeric (f + 2)) (f + 1)
            (("y").toList) st with
         | .error er => .error er
         | .ok (rv, st2) => .ok (false && rv, st2)) := rfl
    rw [left, hy]
  · have right : evaluateCondition (f + 2) (("1 || y").toList) st =
        (match evaluateConditionF (evaluateNumeric (f + 2)) (f + 1)
            (("y").toList) st with
         | .error er => .error er
         | .ok (rv, st2) => .ok (true || rv, st2)) := rfl
    rw [right, hy]

/-- Witness for C3 (amended): the fresh environment defines no `y`. -/
theorem claim_C3_witness :
    evaluateCondition 2 (("0 && y").toList) initSt
      = .error (errCannotEval (("y").toList)) ∧
    evaluateCondition 2 (("1 || y").toList) initSt
      = .error (errCannotEval (("y").toList)) :=
  claim_C3 0 initSt rfl

/-! ## Claim C8 — printf specifier scan order -/

theorem digitChar_ne_pct (d : Nat) : digitChar d ≠ '%' := by
  rcases d with _|_|_|_|_|_|_|_|_|_|_ <;>
    first
    | decide
    | (simp only [digitChar]; decide)

theorem pct_not_mem_natDecAux :
    ∀ (f n : Nat) (acc : Str), ('%') ∉ acc → ('%') ∉ natDecAux f n acc := by
  intro f
  induction f with
  | zero =>
    intro n acc hacc
    simp only [natDecAux]
    intro hm
    rcases List.mem_cons.mp hm with h1 | h1
    · exact digitChar_ne_pct _ h1.symm
    · exact hacc h1
  | succ f ih =>
    intro n acc hacc
    simp only [natDecAux]
    split_ifs
    · intro hm
      rcases List.mem_cons.mp hm with h1 | h1
      · exact digitChar_ne_pct _ h1.symm
      · exact hacc h1
    · refine ih _ _ ?_
      intro hm
      rcases List.mem_cons.mp hm with h1 | h1
      · exact digitChar_ne_pct _ h1.symm
      · exact hacc h1

theorem pct_not_mem_intDec (i : Int) : ('%') ∉ intDec i := by
  rw [intDec]
  split_ifs
  · intro hm
    rcases List.mem_cons.mp hm with h1 | h1
    · exact absurd h1 (by decide)
    · exact pct_not_mem_natDecAux _ _ _ (by simp) h1
  · exact pct_not_mem_natDecAux _ _ _ (by simp)

theorem containsSub_cons_step (c : Char) (cs pat : Str)
    (h : startsWithL (c :: cs) pat = false) :
    containsSub (c :: cs) pat = containsSub cs pat := by
  conv_lhs => rw [containsSub]
  rw [h]
  simp

theorem not_contains_of_pct_not_mem (s t : Str) :
    ('%') ∉ s → containsSub s ('%' :: t) = false := by
  induction s with
  | nil => intro h; rfl
  | cons c cs ih =>
    intro h
    have hc : c ≠ '%' := fun e => h (by simp [e])
    rw [containsSub_cons_step c cs _ (by simp [startsWithL, hc])]
    exact ih (fun hm => h (List.mem_cons_of_mem _ hm))

/-- C8: specifiers are substituted in the fixed scan order
`%p %d %i %f %lf %c %s %ld %u %x %o` — per specifier, while an occurrence
and an unused argument remain, the leftmost occurrence is replaced by the
formatted current argument and the cursor advances — so arguments bind to
specifiers in scan order, not textual order: for the format `%d %p` with
integer arguments `a` (in `u`) then `b` (in `v`), `%p` (scanned first)
takes `a` and `%d` takes `b`, producing the text of `b`, a space, then
the text of `a`. -/
theorem claim_C8 (fuel : Nat) (a b : Int) :
    printfSpecsLoop fuel formatSpecs (("%d %p").toList)
      [("u").toList, ("v").toList] (c8St a b)
      = .ok (intDec b ++ (' ' :: intDec a), c8St a b) := by
  have hpd :
      containsSub ('%' :: 'd' :: ' ' :: intDec a) (("%p").toList) = false := by
    rw [containsSub_cons_step _ _ _ (by rfl),
        containsSub_cons_step _ _ _ (by rfl),
        containsSub_cons_step _ _ _ (by rfl)]
    exact not_contains_of_pct_not_mem (intDec a) (['p'])
      (pct_not_mem_intDec a)
  have e1 : ∀ (r : Str), replaceFirstOcc (("%d %p").toList) (("%p").toList) r
      = '%' :: 'd' :: ' ' :: (r ++ []) := fun r => rfl
  have e2 : ∀ (r : Str),
      replaceFirstOcc ('%' :: 'd' :: ' ' :: intDec a) (("%d").toList) r
      = r ++ (' ' :: intDec a) := fun r => rfl
  have e3 : evaluateValue fuel (("u").toList) (c8St a b)
      = .ok (.int a, c8St a b) := rfl
  have e4 : evaluateValue fuel (("v").toList) (c8St a b)
      = .ok (.int b, c8St a b) := rfl
  have e5 : formatValue (("%p").toList) (Value.int a) = intDec a := rfl
  have e6 : formatValue (("%d").toList) (Value.int b) = intDec b := rfl
  have e7 : containsSub (("%d %p").toList) (("%p").toList) = true := rfl
  have e8 : containsSub ('%' :: 'd' :: ' ' :: intDec a) (("%d").toList)
      = true := rfl
  simp only [formatSpecs, printfSpecsLoop, printfSpecLoop, e7, e3, e5, e1,
    hpd, e8, e4, e6, e2, if_true, if_false, Bool.false_eq_true,
    eq_self_iff_true, ite_true, ite_false, List.append_nil]

end Cweb
